import Mathlib

/-!
Verification of the `gaise` unified generative-AI client core against its
natural-language specification.  Rust data contracts and pure translation
logic from `gaise-core`, `gaise-client` and the provider adapter crates are
shallowly embedded as Lean definitions; streams are modelled as lists of
per-item results, `HashMap` as association lists, `BTreeMap` as key-sorted
association lists, and `chrono` timestamps as integer seconds.  External
library calls that the verified properties never inspect (base64 encoding,
JSON parsing, provider tool-schema conversion) are passed in as function
parameters.
-/

/-! ## Unified contract (`gaise-core/src/contracts`) -/

/-- `OneOrMany<T>` from `gaise-core/src/contracts/mod.rs`. -/
inductive OneOrMany (α : Type) where
  | One : α → OneOrMany α
  | Many : List α → OneOrMany α
deriving Repr, DecidableEq

/-- `GaiseContent` from `gaise_content.rs`; `Vec<u8>` payloads are `List Nat`. -/
inductive GaiseContent where
  | Text (text : String)
  | Audio (data : List Nat) (format : Option String)
  | Image (data : List Nat) (format : Option String)
  | File (data : List Nat) (name : Option String)
  | Parts (parts : List GaiseContent)
deriving Repr

/-- `GaiseFunctionCall` from `gaise_tool_call.rs`. -/
structure GaiseFunctionCall where
  name : String
  arguments : Option String
deriving Repr, DecidableEq

/-- `GaiseToolCall` from `gaise_tool_call.rs` (`r#type` becomes `type`). -/
structure GaiseToolCall where
  id : String
  type : String
  function : GaiseFunctionCall
deriving Repr, DecidableEq

/-- `GaiseToolParameter` from `gaise_tool_parameter.rs`; the `properties`
`HashMap` is an association list. -/
inductive GaiseToolParameter where
  | mk (type : Option String) (description : Option String)
      (properties : Option (List (String × GaiseToolParameter)))
      (items : Option GaiseToolParameter)
      (required : Option (List String))

/-- `GaiseTool` from `gaise_tool_parameter.rs`. -/
structure GaiseTool where
  name : String
  description : Option String
  parameters : Option GaiseToolParameter

/-- `GaiseToolConfig` from `gaise_tool_config.rs`. -/
structure GaiseToolConfig where
  mode : Option String
deriving Repr, DecidableEq

/-- `GaiseGenerationConfig` from `gaise_generation_config.rs`; `f32` is `Float`. -/
structure GaiseGenerationConfig where
  temperature : Option Float
  top_k : Option Nat
  top_p : Option Float
  max_tokens : Option Nat
  thinking_tokens : Option Nat
  thinking_effort : Option String
  cache_key : Option String

/-- `GaiseMessage` from `gaise_message.rs`. -/
structure GaiseMessage where
  role : String
  content : Option (OneOrMany GaiseContent)
  tool_calls : Option (List GaiseToolCall)
  tool_call_id : Option String

/-- `GaiseUsage` from `gaise_usage.rs`; each `HashMap<String, usize>` is an
association list (one iteration order of the hash map). -/
structure GaiseUsage where
  input : Option (List (String × Nat))
  output : Option (List (String × Nat))
deriving Repr, DecidableEq

/-- `GaiseInstructRequest` from `gaise_instruct_request.rs`. -/
structure GaiseInstructRequest where
  model : String
  correlation_id : Option String
  tools : Option (List GaiseTool)
  tool_config : Option GaiseToolConfig
  generation_config : Option GaiseGenerationConfig
  input : OneOrMany GaiseMessage

/-- `GaiseInstructResponse` from `gaise_instruct_response.rs`. -/
structure GaiseInstructResponse where
  output : OneOrMany GaiseMessage
  external_id : Option String
  usage : Option GaiseUsage

/-- `GaiseEmbeddingsRequest` from `gaise_embeddings_request.rs`. -/
structure GaiseEmbeddingsRequest where
  model : String
  correlation_id : Option String
  input : OneOrMany String
deriving Repr, DecidableEq

/-- `GaiseEmbeddingsResponse` from `gaise_embeddings_response.rs`; the
`Vec<Vec<f32>>` payload is `List (List Float)`. -/
structure GaiseEmbeddingsResponse where
  external_id : Option String
  output : List (List Float)
  usage : Option GaiseUsage

/-- `GaiseStreamChunk` from `gaise_instruct_stream_response.rs`. -/
inductive GaiseStreamChunk where
  | Text (t : String)
  | ToolCall (index : Nat) (id : Option String) (name : Option String)
      (arguments : Option String)
  | Usage (u : GaiseUsage)
deriving Repr, DecidableEq

/-- `GaiseInstructStreamResponse` from `gaise_instruct_stream_response.rs`. -/
structure GaiseInstructStreamResponse where
  chunk : GaiseStreamChunk
  external_id : Option String
deriving Repr, DecidableEq

/-! ## Model-identifier parsing (`gaise-client/src/lib.rs`, `parse_model`) -/

/-- `model.splitn(2, "::")` restricted to the split position: returns the
characters before and after the first occurrence of `"::"`, or `none` when
the separator is absent.  Mirrors left-to-right first-match scanning of
Rust `str::splitn`. -/
def splitFirstSep : List Char → Option (List Char × List Char)
  | [] => none
  | c :: rest =>
    if c = ':' then
      match rest with
      | ':' :: tail => some ([], tail)
      | _ => (splitFirstSep rest).map (fun p => (c :: p.1, p.2))
    else
      (splitFirstSep rest).map (fun p => (c :: p.1, p.2))

/-- Whether a character list contains the substring `"::"` (two adjacent
colons). -/
def containsSep : List Char → Bool
  | [] => false
  | c :: rest => ((c == ':') && (rest.head? == some ':')) || containsSep rest

/-- Whether a character list is nonempty and ends with `':'`. -/
def lastIsColon : List Char → Bool
  | [] => false
  | [c] => c = ':'
  | _ :: c :: rest => lastIsColon (c :: rest)

/-- Error message produced by `GaiseClientService::parse_model` on a model
string without `"::"` (the spec calls this error `BadModelFormat`). -/
def badModelFormatMsg : String :=
  "Model name must be in the format \x27provider::model\x27"

/-- `GaiseClientService::parse_model` (gaise-client/src/lib.rs lines 148-154):
split on the first `"::"`; error if absent. -/
def parse_model (model : String) : Except String (String × String) :=
  match splitFirstSep model.data with
  | none => .error badModelFormatMsg
  | some p => .ok (⟨p.1⟩, ⟨p.2⟩)

/-! ## Routing registry dispatch (`gaise-client/src/lib.rs`) -/

/-- A provider adapter's `instruct` capability, abstracted as a function from
request to result (the trait object `Arc<dyn GaiseClient>`'s method). -/
def InstructAdapter : Type :=
  GaiseInstructRequest → Except String GaiseInstructResponse

/-- A provider adapter's `embeddings` capability. -/
def EmbeddingsAdapter : Type :=
  GaiseEmbeddingsRequest → Except String GaiseEmbeddingsResponse

/-- A provider adapter's `instruct_stream` capability; the produced stream is
modelled as the finite list of its per-item results. -/
def StreamAdapter : Type :=
  GaiseInstructRequest →
    Except String (List (Except String GaiseInstructStreamResponse))

/-- `GaiseClientService::instruct` (lib.rs lines 159-187): parse the model,
resolve the adapter, forward the request with `model` rewritten to the bare
model id, and return the adapter's response.  `get_client` resolution is
abstracted as a function from provider name to adapter; the optional logger
only observes values and never alters them, so it is elided. -/
def registryInstruct (getClient : String → Except String InstructAdapter)
    (request : GaiseInstructRequest) : Except String GaiseInstructResponse := do
  let pm ← parse_model request.model
  let client ← getClient pm.1
  let req : GaiseInstructRequest := { request with model := pm.2 }
  client req

/-- `GaiseClientService::embeddings` (lib.rs lines 252-280), modelled like
`registryInstruct`. -/
def registryEmbeddings (getClient : String → Except String EmbeddingsAdapter)
    (request : GaiseEmbeddingsRequest) :
    Except String GaiseEmbeddingsResponse := do
  let pm ← parse_model request.model
  let client ← getClient pm.1
  let req : GaiseEmbeddingsRequest := { request with model := pm.2 }
  client req

/-- The per-item body of the `filter_map` closure in
`GaiseClientService::instruct_stream` (lib.rs lines 220-247): successful
chunks equal to `Text("")` are dropped, every other item passes unchanged
(the logger call inside the closure is value-preserving and elided). -/
def streamFilterItem (item : Except String GaiseInstructStreamResponse) :
    Option (Except String GaiseInstructStreamResponse) :=
  match item with
  | .ok resp =>
    match resp.chunk with
    | .Text t => if t.isEmpty then none else some (.ok resp)
    | _ => some (.ok resp)
  | .error e => some (.error e)

/-- The registry's stream filter applied to a whole (finite) stream. -/
def filterStream (items : List (Except String GaiseInstructStreamResponse)) :
    List (Except String GaiseInstructStreamResponse) :=
  items.filterMap streamFilterItem

/-- `GaiseClientService::instruct_stream` (lib.rs lines 189-250): parse the
model, resolve the adapter, forward the rewritten request, and deliver the
adapter's stream through the empty-text filter. -/
def registryInstructStream (getClient : String → Except String StreamAdapter)
    (request : GaiseInstructRequest) :
    Except String (List (Except String GaiseInstructStreamResponse)) := do
  let pm ← parse_model request.model
  let client ← getClient pm.1
  let req : GaiseInstructRequest := { request with model := pm.2 }
  let stream ← client req
  pure (filterStream stream)

/-! ## `GaiseClientService::get_client` as a two-caller interleaving model
(gaise-client/src/lib.rs lines 87-138).

The Rust code takes a read lock and returns a cached adapter on a hit
(lines 88-93); on a miss it constructs the adapter while holding NO lock
(lines 96-130), then takes the write lock and inserts unconditionally
(lines 133-137) - there is no re-check under the write lock.  Each lock
region is one atomic step; adapter instances are numbered by construction
order so they can be counted. -/

/-- Program counter of one `get_client` caller.  `finished built id` records
whether this caller constructed an adapter itself (`built = true`) and which
adapter instance it returned. -/
inductive GetClientPC where
  | start
  | missed
  | inserting (id : Nat)
  | finished (built : Bool) (id : Nat)
deriving Repr, DecidableEq

/-- Shared registry state plus the two callers, for one fixed previously
unseen provider name.  `cache` is the `clients` map entry for that provider,
`constructed` counts adapter constructions, `nextId` numbers instances. -/
structure GetClientCfg where
  cache : Option Nat
  nextId : Nat
  constructed : Nat
  t1 : GetClientPC
  t2 : GetClientPC
deriving Repr, DecidableEq

/-- One atomic step of a single caller: the read-lock check, the unlocked
construction, or the write-lock insert, as in the Rust control flow. -/
def getClientThreadStep (cache : Option Nat) (nextId constructed : Nat)
    (pc : GetClientPC) : Option Nat × Nat × Nat × GetClientPC :=
  match pc with
  | .start =>
    match cache with
    | some id => (cache, nextId, constructed, .finished false id)
    | none => (cache, nextId, constructed, .missed)
  | .missed => (cache, nextId + 1, constructed + 1, .inserting nextId)
  | .inserting id => (some id, nextId, constructed, .finished true id)
  | .finished built id => (cache, nextId, constructed, .finished built id)

/-- Interleaving: `false` schedules caller 1, `true` schedules caller 2. -/
def getClientStep (cfg : GetClientCfg) (who : Bool) : GetClientCfg :=
  if who then
    let s := getClientThreadStep cfg.cache cfg.nextId cfg.constructed cfg.t2
    { cache := s.1, nextId := s.2.1, constructed := s.2.2.1, t1 := cfg.t1,
      t2 := s.2.2.2 }
  else
    let s := getClientThreadStep cfg.cache cfg.nextId cfg.constructed cfg.t1
    { cache := s.1, nextId := s.2.1, constructed := s.2.2.1, t1 := s.2.2.2,
      t2 := cfg.t2 }

/-- Run a schedule of interleaved steps. -/
def getClientRun (cfg : GetClientCfg) : List Bool → GetClientCfg
  | [] => cfg
  | who :: rest => getClientRun (getClientStep cfg who) rest

/-- Initial state: empty cache (previously unseen provider), both callers
about to enter `get_client`. -/
def getClientInit : GetClientCfg :=
  { cache := none, nextId := 0, constructed := 0, t1 := .start, t2 := .start }

/-- Whether a caller has returned from `get_client`. -/
def GetClientPC.isFinished : GetClientPC → Bool
  | .finished _ _ => true
  | _ => false

/-! ## Stream accumulator (`gaise_instruct_stream_response.rs`) -/

/-- `BTreeMap::entry(k).or_insert_with(dflt)` followed by a mutation `f` of
the entry, on a key-sorted association list. -/
def btreeUpdate (k : Nat) (dflt : GaiseToolCall) (f : GaiseToolCall → GaiseToolCall) :
    List (Nat × GaiseToolCall) → List (Nat × GaiseToolCall)
  | [] => [(k, f dflt)]
  | (k', v) :: rest =>
    if k = k' then (k', f v) :: rest
    else if k < k' then (k, f dflt) :: (k', v) :: rest
    else (k', v) :: btreeUpdate k dflt f rest

/-- First-match lookup on an association list (`BTreeMap::get`). -/
def btreeFind (k : Nat) : List (Nat × GaiseToolCall) → Option GaiseToolCall
  | [] => none
  | (k', v) :: rest => if k = k' then some v else btreeFind k rest

/-- `HashMap::entry(k).or_insert(0) += v` on an association list. -/
def mapAddEntry (m : List (String × Nat)) (k : String) (v : Nat) :
    List (String × Nat) :=
  match m with
  | [] => [(k, v)]
  | (k', v') :: rest =>
    if k = k' then (k', v' + v) :: rest else (k', v') :: mapAddEntry rest k v

/-- The usage-merge loop `for (k, v) in input { *cur.entry(k).or_insert(0) += v }`. -/
def mapMerge (cur u : List (String × Nat)) : List (String × Nat) :=
  u.foldl (fun acc kv => mapAddEntry acc kv.1 kv.2) cur

/-- First-match lookup with absent keys read as zero. -/
def mapLookup0 (m : List (String × Nat)) (k : String) : Nat :=
  match m with
  | [] => 0
  | (k', v) :: rest => if k = k' then v else mapLookup0 rest k

/-- Lookup-as-zero on an optional map (`Option<HashMap<..>>`). -/
def optLookup0 (m : Option (List (String × Nat))) (k : String) : Nat :=
  mapLookup0 (m.getD []) k

/-- `GaiseStreamAccumulator` (gaise_instruct_stream_response.rs lines 27-34);
the `BTreeMap<usize, GaiseToolCall>` is a key-sorted association list. -/
structure GaiseStreamAccumulator where
  role : String
  text : String
  tool_calls : List (Nat × GaiseToolCall)
  usage : Option GaiseUsage
  external_id : Option String
deriving Repr, DecidableEq

/-- `GaiseStreamAccumulator::new`. -/
def GaiseStreamAccumulator.new : GaiseStreamAccumulator :=
  { role := "assistant", text := "", tool_calls := [], usage := none,
    external_id := none }

/-- The fresh builder created by `or_insert_with` in the `ToolCall` arm:
`GaiseToolCall { r#type: "function", ..Default::default() }`. -/
def newToolCallBuilder : GaiseToolCall :=
  { id := "", type := "function", function := { name := "", arguments := none } }

/-- The field-append mutation applied to the builder in the `ToolCall` arm of
`push`: each present delta field is concatenated onto the builder. -/
def appendToolCallFields (id name arguments : Option String)
    (entry : GaiseToolCall) : GaiseToolCall :=
  let entry := match id with
    | some i => { entry with id := entry.id ++ i }
    | none => entry
  let entry := match name with
    | some n =>
      { entry with function := { entry.function with name := entry.function.name ++ n } }
    | none => entry
  match arguments with
  | some args =>
    { entry with function :=
        { entry.function with
          arguments := some ((entry.function.arguments.getD "") ++ args) } }
  | none => entry

/-- `GaiseStreamAccumulator::push` (lines 44-86). -/
def GaiseStreamAccumulator.push (acc : GaiseStreamAccumulator)
    (response : GaiseInstructStreamResponse) : GaiseStreamAccumulator :=
  let acc := if acc.external_id.isNone
    then { acc with external_id := response.external_id } else acc
  match response.chunk with
  | .Text t => { acc with text := acc.text ++ t }
  | .ToolCall index id name arguments =>
    { acc with tool_calls :=
        (btreeUpdate index newToolCallBuilder
          (appendToolCallFields id name arguments) acc.tool_calls) }
  | .Usage u =>
    let current := acc.usage.getD { input := none, output := none }
    let current := match u.input with
      | some input =>
        { current with input := some (mapMerge (current.input.getD []) input) }
      | none => current
    let current := match u.output with
      | some output =>
        { current with output := some (mapMerge (current.output.getD []) output) }
      | none => current
    { acc with usage := some current }

/-- Push a whole sequence of chunks onto the fresh accumulator. -/
def pushAll (chunks : List GaiseInstructStreamResponse) : GaiseStreamAccumulator :=
  chunks.foldl GaiseStreamAccumulator.push GaiseStreamAccumulator.new

/-- A pure `Usage` stream chunk with no external id. -/
def usageChunk (u : GaiseUsage) : GaiseInstructStreamResponse :=
  { chunk := .Usage u, external_id := none }

/-- Key-sorted association list (the `BTreeMap` representation invariant). -/
def sortedKeys (m : List (Nat × GaiseToolCall)) : Prop :=
  List.Chain' (fun a b => a.1 < b.1) m

/-! ## VertexAI token manager (`gaise-provider-vertexai/src/vertexai_client.rs`) -/

/-- `TokenState` (vertexai_client.rs lines 31-35); `DateTime<Utc>` is an
integer Unix timestamp in seconds. -/
structure TokenState where
  access_token : String
  token_type : String
  expires_at : Option Int
deriving Repr, DecidableEq

/-- The token cache as initialised by `GaiseClientVertexAI::new`. -/
def initTokenState : TokenState :=
  { access_token := "", token_type := "Bearer", expires_at := none }

/-- `GoogleAccessToken` (vertexai contracts/models.rs): the token endpoint's
parsed response. -/
structure GoogleAccessToken where
  access_token : String
  token_type : String
  expires_in : Nat
deriving Repr, DecidableEq

/-- `refresh_skew = Duration::from_secs(5 * 60)` in seconds. -/
def refreshSkew : Int := 5 * 60

/-- The refresh decision of `get_token` (vertexai_client.rs lines 57-60). -/
def needsRefresh (state : TokenState) (now : Int) : Bool :=
  match state.expires_at with
  | none => state.access_token.isEmpty
  | some exp => state.access_token.isEmpty || decide (now + refreshSkew ≥ exp)

/-- `GaiseClientVertexAI::get_token` (lines 50-74) as a pure function of the
locked state, the current time and the (single possible) fetch result;
returns the new cache state, the returned token, and how many times
`fetch_new_token` ran. -/
def get_token (state : TokenState) (now : Int) (fetched : GoogleAccessToken) :
    TokenState × String × Nat :=
  if needsRefresh state now then
    let expires_at := now + (fetched.expires_in : Int)
    ({ access_token := fetched.access_token, token_type := fetched.token_type,
       expires_at := some expires_at }, fetched.access_token, 1)
  else
    (state, state.access_token, 0)

/-! ## Shared helpers for provider translators -/

/-- A JSON value (`serde_json::Value`); numbers collapsed to `Int`, which no
verified property inspects. -/
inductive Json where
  | null
  | bool (b : Bool)
  | num (n : Int)
  | str (s : String)
  | arr (elems : List Json)
  | obj (fields : List (String × Json))

/-- The `match &request.input { One(m) => vec![m], Many(ms) => ms }` pattern
every translator starts with. -/
def oneOrManyToList {α : Type} : OneOrMany α → List α
  | .One m => [m]
  | .Many ms => ms

/-! ## OpenAI adapter request translation
(`gaise-provider-openai/src/openai_client.rs` and its `contracts/models.rs`).
`base64::encode` is passed in as `b64`; the tool-schema conversion
`From<GaiseTool> for OpenAITool` is passed in as `toolOf`. -/

/-- `OpenAIParameterProperty` (recursive through `items`). -/
inductive OpenAIParameterProperty where
  | mk (type : String) (description : String)
      (items : Option OpenAIParameterProperty)

/-- `OpenAIParameters`; the properties `HashMap` is an association list. -/
structure OpenAIParameters where
  type : String
  properties : List (String × OpenAIParameterProperty)
  required : List String

/-- `OpenAIFunction`. -/
structure OpenAIFunction where
  name : String
  description : Option String
  parameters : OpenAIParameters

/-- `OpenAITool`. -/
structure OpenAITool where
  type : String
  function : OpenAIFunction

/-- `OpenAIImageUrl`. -/
structure OpenAIImageUrl where
  url : String
deriving Repr, DecidableEq

/-- `OpenAIInputAudio`. -/
structure OpenAIInputAudio where
  data : String
  format : String
deriving Repr, DecidableEq

/-- `OpenAIContentPart`. -/
inductive OpenAIContentPart where
  | Text (text : String)
  | ImageUrl (image_url : OpenAIImageUrl)
  | InputAudio (input_audio : OpenAIInputAudio)
deriving Repr, DecidableEq

/-- `OpenAIContent`. -/
inductive OpenAIContent where
  | Text (s : String)
  | Parts (parts : List OpenAIContentPart)
deriving Repr, DecidableEq

/-- `OpenAIFunctionCall`. -/
structure OpenAIFunctionCall where
  name : String
  arguments : String
deriving Repr, DecidableEq

/-- `OpenAIToolCall`. -/
structure OpenAIToolCall where
  id : String
  type : String
  function : OpenAIFunctionCall
deriving Repr, DecidableEq

/-- `OpenAIMessage` (request side). -/
structure OpenAIMessage where
  role : String
  content : Option OpenAIContent
  tool_calls : Option (List OpenAIToolCall)
  tool_call_id : Option String

/-- `OpenAIChatRequest`. -/
structure OpenAIChatRequest where
  model : String
  messages : List OpenAIMessage
  tools : Option (List OpenAITool)
  temperature : Option Float
  top_p : Option Float
  max_tokens : Option Nat
  prompt_cache_key : Option String
  stream : Bool

/-- The per-item `filter_map` body of the OpenAI content translation
(openai_client.rs lines 67-94): `Text` maps to a text part, `Image`/`Audio`
to inline base64 payloads, and a `Parts` item is reduced to the
concatenation of its DIRECT `Text` children only (nested `Parts` children
are skipped), dropped entirely when that concatenation is empty; `File` is
dropped. -/
def openaiMapContentItem (b64 : List Nat → String) :
    GaiseContent → Option OpenAIContentPart
  | .Text text => some (.Text text)
  | .Image data format =>
    let base64_data := b64 data
    let mime_type := format.getD "image/jpeg"
    let url := "data:" ++ mime_type ++ ";base64," ++ base64_data
    some (.ImageUrl { url })
  | .Audio data format =>
    let base64_data := b64 data
    let audio_format := format.getD "mp3"
    some (.InputAudio { data := base64_data, format := audio_format })
  | .Parts parts =>
    let text_acc := parts.foldl
      (fun acc part => match part with
        | GaiseContent.Text text => acc ++ text
        | _ => acc) ""
    if text_acc.isEmpty then none else some (.Text text_acc)
  | .File _ _ => none

/-- OpenAI translation of one message's content (openai_client.rs lines
61-102), including the collapse of a single text part to plain text. -/
def openaiMapContent (b64 : List Nat → String) (c : OneOrMany GaiseContent) :
    OpenAIContent :=
  let items := oneOrManyToList c
  let parts := items.filterMap (openaiMapContentItem b64)
  match parts with
  | [OpenAIContentPart.Text text] => OpenAIContent.Text text
  | _ => OpenAIContent.Parts parts

/-- OpenAI translation of one message (openai_client.rs lines 60-123); the
role is passed through unchanged, so system messages stay inline. -/
def openaiMapMessage (b64 : List Nat → String) (m : GaiseMessage) :
    OpenAIMessage :=
  { role := m.role
    content := m.content.map (openaiMapContent b64)
    tool_calls := m.tool_calls.map (fun tcs => tcs.map (fun tc =>
      { id := tc.id, type := tc.type,
        function := { name := tc.function.name,
                      arguments := tc.function.arguments.getD "" } }))
    tool_call_id := m.tool_call_id }

/-- `From<&GaiseInstructRequest> for OpenAIChatRequest`
(openai_client.rs lines 53-136). -/
def OpenAIChatRequest.from (b64 : List Nat → String)
    (toolOf : GaiseTool → OpenAITool) (request : GaiseInstructRequest) :
    OpenAIChatRequest :=
  { model := request.model
    messages := (oneOrManyToList request.input).map (openaiMapMessage b64)
    stream := false
    temperature := request.generation_config.bind (·.temperature)
    top_p := request.generation_config.bind (·.top_p)
    max_tokens := request.generation_config.bind (·.max_tokens)
    prompt_cache_key := request.generation_config.bind (·.cache_key)
    tools := request.tools.map (fun ts => ts.map toolOf) }

/-! ## Ollama adapter request translation
(`gaise-provider-ollama/src/ollama_client.rs`). -/

/-- `OllamaParameterProperty` (recursive through `items`). -/
inductive OllamaParameterProperty where
  | mk (type : String) (description : String)
      (items : Option OllamaParameterProperty)

/-- `OllamaParameters`. -/
structure OllamaParameters where
  type : String
  properties : List (String × OllamaParameterProperty)
  required : List String

/-- `OllamaFunction`. -/
structure OllamaFunction where
  name : String
  description : String
  parameters : OllamaParameters

/-- `OllamaTool`. -/
structure OllamaTool where
  type : String
  function : OllamaFunction

/-- `OllamaFunctionCall`; the arguments `HashMap<String, Value>` is an
association list. -/
structure OllamaFunctionCall where
  name : String
  arguments : List (String × Json)

/-- `OllamaToolCall`. -/
structure OllamaToolCall where
  function : OllamaFunctionCall

/-- `OllamaMessage` as constructed by the request translator, whose built
`content` is a plain `String`. -/
structure OllamaMessage where
  role : String
  content : String
  images : Option (List String)
  tool_calls : Option (List OllamaToolCall)

/-- `OllamaOptions`. -/
structure OllamaOptions where
  temperature : Option Float
  top_k : Option Nat
  top_p : Option Float
  num_predict : Option Nat

/-- `OllamaChatRequest`. -/
structure OllamaChatRequest where
  model : String
  messages : List OllamaMessage
  tools : Option (List OllamaTool)
  options : Option OllamaOptions
  stream : Bool
  format : Option String

/-- One step of the Ollama content loop (ollama_client.rs lines 69-85) over
the running `(content, images)` pair: `Text` appends to the content string,
`Image` pushes a base64 payload, a `Parts` item appends only its DIRECT
`Text` children, everything else is ignored. -/
def ollamaContentStep (b64 : List Nat → String) (st : String × List String)
    (item : GaiseContent) : String × List String :=
  match item with
  | .Text text => (st.1 ++ text, st.2)
  | .Image data _ => (st.1, st.2 ++ [b64 data])
  | .Parts parts =>
    (parts.foldl (fun acc part => match part with
      | GaiseContent.Text text => acc ++ text
      | _ => acc) st.1, st.2)
  | _ => st

/-- The Ollama tool-call argument mapping (ollama_client.rs lines 87-106);
`serde_json::from_str` into a map is passed in as `parseJsonObj`. -/
def ollamaMapToolCall (parseJsonObj : String → Option (List (String × Json)))
    (tc : GaiseToolCall) : OllamaToolCall :=
  let arguments := (tc.function.arguments.bind (fun args =>
    if args.trim.startsWith "\x7b" then parseJsonObj args else none)).getD []
  { function := { name := tc.function.name, arguments } }

/-- Ollama translation of one message (ollama_client.rs lines 59-113); the
role is passed through unchanged, so system messages stay inline. -/
def ollamaMapMessage (b64 : List Nat → String)
    (parseJsonObj : String → Option (List (String × Json)))
    (m : GaiseMessage) : OllamaMessage :=
  let st := match m.content with
    | some c => (oneOrManyToList c).foldl (ollamaContentStep b64) ("", [])
    | none => ("", [])
  { role := m.role
    content := st.1
    images := if st.2.isEmpty then none else some st.2
    tool_calls := m.tool_calls.map (fun tcs =>
      tcs.map (ollamaMapToolCall parseJsonObj)) }

/-- `From<&GaiseInstructRequest> for OllamaChatRequest`
(ollama_client.rs lines 52-130). -/
def OllamaChatRequest.from (b64 : List Nat → String)
    (parseJsonObj : String → Option (List (String × Json)))
    (toolOf : GaiseTool → OllamaTool) (request : GaiseInstructRequest) :
    OllamaChatRequest :=
  { model := request.model
    messages := (oneOrManyToList request.input).map
      (ollamaMapMessage b64 parseJsonObj)
    stream := false
    options := request.generation_config.map (fun c =>
      { temperature := c.temperature, top_k := c.top_k, top_p := c.top_p,
        num_predict := c.max_tokens })
    tools := request.tools.map (fun ts => ts.map toolOf)
    format := none }

/-! ## Anthropic adapter request translation
(`gaise-provider-anthropic/src/anthropic_client.rs`). -/

/-- `AnthropicProperty` (recursive through `items`). -/
inductive AnthropicProperty where
  | mk (type : String) (description : String)
      (items : Option AnthropicProperty)

/-- `AnthropicInputSchema`. -/
structure AnthropicInputSchema where
  type : String
  properties : List (String × AnthropicProperty)
  required : List String

/-- `AnthropicTool`. -/
structure AnthropicTool where
  name : String
  description : Option String
  input_schema : AnthropicInputSchema

/-- `AnthropicImageSource`. -/
structure AnthropicImageSource where
  type : String
  media_type : String
  data : String

/-- `AnthropicContentBlock`. -/
inductive AnthropicContentBlock where
  | Text (text : String)
  | Image (source : AnthropicImageSource)
  | ToolUse (id : String) (name : String) (input : Json)
  | ToolResult (tool_use_id : String) (content : String)

/-- `AnthropicContent`. -/
inductive AnthropicContent where
  | Text (s : String)
  | Blocks (blocks : List AnthropicContentBlock)

/-- `AnthropicMessage`. -/
structure AnthropicMessage where
  role : String
  content : AnthropicContent

/-- `AnthropicRequest`. -/
structure AnthropicRequest where
  model : String
  messages : List AnthropicMessage
  max_tokens : Nat
  system : Option String
  tools : Option (List AnthropicTool)
  temperature : Option Float
  top_p : Option Float
  stream : Option Bool

/-- One iteration of the message loop in `From<&GaiseInstructRequest> for
AnthropicRequest` (anthropic_client.rs lines 61-160) over the running
`(system_prompt, anthropic_messages)` state.  A `"system"`-role message is
NEVER pushed onto the turn list: it only overwrites the system prompt when
its content is a single `Text` item (so the LAST such message wins), and is
silently dropped otherwise. -/
def anthropicStep (b64 : List Nat → String) (parseJson : String → Option Json)
    (st : Option String × List AnthropicMessage) (m : GaiseMessage) :
    Option String × List AnthropicMessage :=
  if m.role = "system" then
    let sys := match m.content with
      | some (OneOrMany.One (GaiseContent.Text text)) => some text
      | _ => st.1
    (sys, st.2)
  else
    let content := match m.content with
      | some c =>
        let items := oneOrManyToList c
        let blocks := items.filterMap (fun item =>
          match item with
          | GaiseContent.Text text => some (AnthropicContentBlock.Text text)
          | GaiseContent.Image data format =>
            some (AnthropicContentBlock.Image
              { type := "base64", media_type := format.getD "image/jpeg",
                data := b64 data })
          | _ => none)
        match blocks with
        | [AnthropicContentBlock.Text text] => AnthropicContent.Text text
        | _ => AnthropicContent.Blocks blocks
      | none => AnthropicContent.Text ""
    let final_content := match m.tool_calls with
      | some tool_calls =>
        let blocks := match content with
          | AnthropicContent.Text t => [AnthropicContentBlock.Text t]
          | AnthropicContent.Blocks b => b
        let blocks := blocks ++ tool_calls.map (fun tc =>
          let input := match tc.function.arguments with
            | some args => (parseJson args).getD (Json.obj [])
            | none => Json.obj []
          AnthropicContentBlock.ToolUse tc.id tc.function.name input)
        AnthropicContent.Blocks blocks
      | none =>
        match m.tool_call_id with
        | some tool_call_id =>
          let text := match content with
            | AnthropicContent.Text t => t
            | AnthropicContent.Blocks blocks =>
              String.intercalate "\n" (blocks.filterMap (fun b =>
                match b with
                | AnthropicContentBlock.Text text => some text
                | _ => none))
          AnthropicContent.Blocks
            [AnthropicContentBlock.ToolResult tool_call_id text]
        | none => content
    (st.1, st.2 ++ [{ role := m.role, content := final_content }])

/-- `From<&GaiseInstructRequest> for AnthropicRequest`
(anthropic_client.rs lines 51-175). -/
def AnthropicRequest.from (b64 : List Nat → String)
    (parseJson : String → Option Json) (toolOf : GaiseTool → AnthropicTool)
    (request : GaiseInstructRequest) : AnthropicRequest :=
  let messages := oneOrManyToList request.input
  let st := messages.foldl (anthropicStep b64 parseJson) (none, [])
  { model := request.model
    messages := st.2
    max_tokens := (request.generation_config.bind (·.max_tokens)).getD 4096
    system := st.1
    temperature := request.generation_config.bind (·.temperature)
    top_p := request.generation_config.bind (·.top_p)
    tools := request.tools.map (fun ts => ts.map toolOf)
    stream := some false }

/-! ## VertexAI adapter request translation
(`gaise-provider-vertexai/src/contracts/models.rs`). -/

/-- `GoogleInlineData`. -/
structure GoogleInlineData where
  mime_type : String
  data : String

/-- `GoogleFunctionCall`. -/
structure GoogleFunctionCall where
  name : String
  args : Json

/-- `GoogleToolResponse`. -/
structure GoogleToolResponse where
  name : String
  response : Json

/-- `GooglePart`. -/
structure GooglePart where
  text : Option String
  inline_data : Option GoogleInlineData
  tool_call : Option GoogleFunctionCall
  tool_response : Option GoogleToolResponse

/-- `GoogleContent`. -/
structure GoogleContent where
  role : String
  parts : List GooglePart

/-- `GoogleSchema` (recursive through `properties` and `items`). -/
inductive GoogleSchema where
  | mk (type : String) (description : Option String)
      (properties : Option (List (String × GoogleSchema)))
      (items : Option GoogleSchema)
      (required : Option (List String))

/-- `GoogleFunctionDeclaration`. -/
structure GoogleFunctionDeclaration where
  name : String
  description : String
  parameters : GoogleSchema

/-- `GoogleTool`. -/
structure GoogleTool where
  function_declarations : List GoogleFunctionDeclaration

/-- `GoogleFunctionCallingConfig`. -/
structure GoogleFunctionCallingConfig where
  mode : String

/-- `GoogleToolConfig`. -/
structure GoogleToolConfig where
  function_calling_config : GoogleFunctionCallingConfig

/-- `GoogleParameters`. -/
structure GoogleParameters where
  temperature : Option Float
  max_output_tokens : Option Nat
  top_p : Option Float
  top_k : Option Nat
  auto_truncate : Option Bool

/-- `GoogleInstructRequest`. -/
structure GoogleInstructRequest where
  contents : List GoogleContent
  system_instruction : Option GoogleContent
  generation_config : Option GoogleParameters
  tools : Option (List GoogleTool)
  tool_config : Option GoogleToolConfig

/-- `to_google_role` (models.rs lines 473-479). -/
def to_google_role (input : String) : Option String :=
  let result := if input = "assistant" then "model" else input
  some result

mutual

/-- `GooglePart::from_gaise` (models.rs lines 117-172): a `Parts` item is
flattened RECURSIVELY via `flat_map`. -/
def GooglePart.from_gaise (b64 : List Nat → String) :
    GaiseContent → List GooglePart
  | .Text text =>
    [{ text := some text, inline_data := none, tool_call := none,
       tool_response := none }]
  | .Audio data format =>
    [{ text := none,
       inline_data := some { mime_type := format.getD "audio/mpeg",
                             data := b64 data },
       tool_call := none, tool_response := none }]
  | .Image data format =>
    [{ text := none,
       inline_data := some { mime_type := format.getD "image/jpeg",
                             data := b64 data },
       tool_call := none, tool_response := none }]
  | .File data name =>
    let mime_type := match name with
      | some n =>
        if n.endsWith ".pdf" then "application/pdf"
        else "application/octet-stream"
      | none => "application/octet-stream"
    [{ text := none,
       inline_data := some { mime_type := mime_type, data := b64 data },
       tool_call := none, tool_response := none }]
  | .Parts parts => GooglePart.from_gaiseList b64 parts

/-- The `parts.iter().flat_map(GooglePart::from_gaise).collect()` loop. -/
def GooglePart.from_gaiseList (b64 : List Nat → String) :
    List GaiseContent → List GooglePart
  | [] => []
  | c :: cs => GooglePart.from_gaise b64 c ++ GooglePart.from_gaiseList b64 cs

end

/-- `GoogleInstructRequest::add_content` (models.rs lines 242-314).  A
`"system"`-role message never reaches `contents`: when it has content it
OVERWRITES `system_instruction` (so the last one wins), with the prompt text
taken from a single `Text` content and empty otherwise. -/
def GoogleInstructRequest.add_content (b64 : List Nat → String)
    (parseJson : String → Option Json) (request : GoogleInstructRequest)
    (msg : GaiseMessage) : GoogleInstructRequest :=
  if msg.role = "system" then
    match msg.content with
    | some content =>
      let prompt := match content with
        | OneOrMany.One (GaiseContent.Text text) => text
        | _ => ""
      let part : GooglePart :=
        { text := some prompt, inline_data := none, tool_call := none,
          tool_response := none }
      { request with system_instruction :=
          (some { role := "system", parts := [part] }) }
    | none => request
  else
    let parts := match msg.content with
      | some (OneOrMany.One x) => GooglePart.from_gaise b64 x
      | some (OneOrMany.Many items) => GooglePart.from_gaiseList b64 items
      | none => []
    let parts := parts ++ (match msg.tool_calls with
      | some tool_calls => tool_calls.map (fun tc =>
        let args := (tc.function.arguments.bind parseJson).getD (Json.obj [])
        { text := none, inline_data := none,
          tool_call := some { name := tc.function.name, args := args },
          tool_response := none })
      | none => [])
    let parts := parts ++ (match msg.tool_call_id, msg.content with
      | some tool_call_id, some content =>
        let response_val := match content with
          | OneOrMany.One (GaiseContent.Text text) =>
            (parseJson text).getD (Json.str text)
          | _ => Json.null
        let tr : GoogleToolResponse :=
          { name := tool_call_id, response := response_val }
        [{ text := none, inline_data := none, tool_call := none,
           tool_response := some tr }]
      | _, _ => [])
    if parts.isEmpty then request
    else
      { request with contents := request.contents ++
          [{ role := (to_google_role msg.role).getD msg.role, parts }] }

/-- The `GoogleSchema` used when a tool has no parameters (models.rs lines
334-340). -/
def emptyGoogleSchema : GoogleSchema :=
  .mk "object" none (some []) none none

/-- `GoogleInstructRequest::from` (models.rs lines 316-362); the recursive
`GoogleSchema::from` tool-parameter conversion is passed in as `schemaOf`. -/
def GoogleInstructRequest.from (b64 : List Nat → String)
    (parseJson : String → Option Json)
    (schemaOf : GaiseToolParameter → GoogleSchema)
    (source : GaiseInstructRequest) : GoogleInstructRequest :=
  let request : GoogleInstructRequest :=
    { contents := []
      system_instruction := none
      generation_config := source.generation_config.map (fun gc =>
        { temperature := gc.temperature, max_output_tokens := gc.max_tokens,
          top_p := gc.top_p, top_k := gc.top_k, auto_truncate := none })
      tools := source.tools.map (fun tools =>
        [{ function_declarations := tools.map (fun t =>
            { name := t.name, description := t.description.getD "",
              parameters := match t.parameters with
                | some p => schemaOf p
                | none => emptyGoogleSchema }) }])
      tool_config := source.tool_config.map (fun tc =>
        { function_calling_config :=
            { mode := (tc.mode.getD "AUTO").toUpper } }) }
  (oneOrManyToList source.input).foldl
    (fun r x => GoogleInstructRequest.add_content b64 parseJson r x) request

/-! ## Bedrock adapter request translation
(`gaise-provider-bedrock/src/bedrock_client.rs`). -/

/-- `aws_sdk_bedrockruntime::types::ImageFormat` (the variants used). -/
inductive BedrockImageFormat where
  | Png
  | Jpeg
  | Webp
  | Gif
deriving Repr, DecidableEq

/-- `aws_sdk_bedrockruntime::types::DocumentFormat` (the variants used). -/
inductive BedrockDocumentFormat where
  | Pdf
  | Csv
  | Doc
  | Docx
  | Xls
  | Xlsx
  | Html
  | Txt
  | Md
deriving Repr, DecidableEq

/-- `aws_sdk_bedrockruntime::types::ContentBlock` (the variants built by the
adapter); byte blobs are `List Nat`. -/
inductive BedrockContentBlock where
  | Text (s : String)
  | Image (format : BedrockImageFormat) (bytes : List Nat)
  | Document (name : String) (format : BedrockDocumentFormat) (bytes : List Nat)
deriving Repr, DecidableEq

/-- `aws_sdk_bedrockruntime::types::ConversationRole`. -/
inductive BedrockRole where
  | User
  | Assistant
deriving Repr, DecidableEq

/-- A built `aws_sdk_bedrockruntime::types::Message`. -/
structure BedrockMessage where
  role : BedrockRole
  content : List BedrockContentBlock
deriving Repr, DecidableEq

mutual

/-- `GaiseClientBedrock::map_gaise_content_to_bedrock` (bedrock_client.rs
lines 51-100): a `Parts` item is flattened RECURSIVELY via `flat_map`;
`Audio` falls to the `_ => vec![]` arm. -/
def mapGaiseContentToBedrock : GaiseContent → List BedrockContentBlock
  | .Text text => [.Text text]
  | .Image data format =>
    let fmt := match format with
      | some "png" => BedrockImageFormat.Png
      | some "jpeg" => BedrockImageFormat.Jpeg
      | some "jpg" => BedrockImageFormat.Jpeg
      | some "webp" => BedrockImageFormat.Webp
      | some "gif" => BedrockImageFormat.Gif
      | _ => BedrockImageFormat.Jpeg
    [.Image fmt data]
  | .Parts parts => mapGaiseContentListToBedrock parts
  | .File data name =>
    let fmt := match name with
      | some n =>
        if n.endsWith ".pdf" then BedrockDocumentFormat.Pdf
        else if n.endsWith ".csv" then BedrockDocumentFormat.Csv
        else if n.endsWith ".doc" then BedrockDocumentFormat.Doc
        else if n.endsWith ".docx" then BedrockDocumentFormat.Docx
        else if n.endsWith ".xls" then BedrockDocumentFormat.Xls
        else if n.endsWith ".xlsx" then BedrockDocumentFormat.Xlsx
        else if n.endsWith ".html" then BedrockDocumentFormat.Html
        else if n.endsWith ".txt" then BedrockDocumentFormat.Txt
        else if n.endsWith ".md" then BedrockDocumentFormat.Md
        else BedrockDocumentFormat.Txt
      | none => BedrockDocumentFormat.Txt
    [.Document (name.getD "document") fmt data]
  | .Audio _ _ => []

/-- The `parts.iter().flat_map(..).collect()` loop of the `Parts` arm. -/
def mapGaiseContentListToBedrock : List GaiseContent → List BedrockContentBlock
  | [] => []
  | c :: cs => mapGaiseContentToBedrock c ++ mapGaiseContentListToBedrock cs

end

/-- `GaiseClientBedrock::map_gaise_message_to_bedrock` (bedrock_client.rs
lines 102-127): roles other than `"user"`/`"assistant"` are dropped. -/
def mapGaiseMessageToBedrock (msg : GaiseMessage) : Option BedrockMessage :=
  let role? : Option BedrockRole :=
    if msg.role = "user" then some .User
    else if msg.role = "assistant" then some .Assistant
    else none
  match role? with
  | none => none
  | some role =>
    let content_blocks := match msg.content with
      | some (OneOrMany.One c) => mapGaiseContentToBedrock c
      | some (OneOrMany.Many v) => mapGaiseContentListToBedrock v
      | none => []
    some { role := role, content := content_blocks }

/-- The `Text` items the Bedrock system branch collects from one message's
content (single or list), bedrock_client.rs lines 143-158. -/
def bedrockMessageTexts (msg : GaiseMessage) : List String :=
  match msg.content with
  | some (OneOrMany.One c) =>
    (match c with
      | GaiseContent.Text text => [text]
      | _ => [])
  | some (OneOrMany.Many v) =>
    v.filterMap (fun c => match c with
      | GaiseContent.Text text => some text
      | _ => none)
  | none => []

/-- The system/turn partition loop at the head of
`GaiseClientBedrock::instruct` (bedrock_client.rs lines 133-162): EVERY
`"system"`-role message is removed from the turn list and every `Text` item
of its content (single or list) is appended to the system block list. -/
def bedrockPartition (input : OneOrMany GaiseMessage) :
    List BedrockMessage × List String :=
  (oneOrManyToList input).foldl
    (fun st msg =>
      if msg.role = "system" then
        (st.1, st.2 ++ bedrockMessageTexts msg)
      else
        match mapGaiseMessageToBedrock msg with
        | some m => (st.1 ++ [m], st.2)
        | none => st)
    ([], [])

/-! ## Spec-side definitions and views used by the theorems -/

mutual

/-- Modelled from the spec: the recursive flattening of a `Content` value to
its flat ordered sequence of leaf contents, which §3 requires every
consumer to apply (`Parts` nests arbitrarily; never assume one level). -/
def specFlattenContent : GaiseContent → List GaiseContent
  | .Parts parts => specFlattenList parts
  | c => [c]

/-- Modelled from the spec: flattening of a content sequence. -/
def specFlattenList : List GaiseContent → List GaiseContent
  | [] => []
  | c :: cs => specFlattenContent c ++ specFlattenList cs

end

/-- `containsSep` on a Lean string. -/
def containsSepStr (s : String) : Bool :=
  containsSep s.data

/-- `lastIsColon` on a Lean string. -/
def lastIsColonStr (s : String) : Bool :=
  lastIsColon s.data

/-- Whether a stream item is kept by the registry's empty-text filter. -/
def keepStreamItem (item : Except String GaiseInstructStreamResponse) : Bool :=
  match item with
  | .ok resp =>
    match resp.chunk with
    | .Text t => !t.isEmpty
    | _ => true
  | .error _ => true

/-- The error carried by a stream item, if any. -/
def streamItemError (item : Except String GaiseInstructStreamResponse) :
    Option String :=
  match item with
  | .ok _ => none
  | .error e => some e

/-- Whether a delivered stream item is a successful empty-text chunk. -/
def isEmptyTextItem (item : Except String GaiseInstructStreamResponse) : Bool :=
  match item with
  | .ok resp =>
    match resp.chunk with
    | .Text t => t.isEmpty
    | _ => false
  | .error _ => false

/-- A successful text stream item with no external id (mock adapter output). -/
def textItem (t : String) : Except String GaiseInstructStreamResponse :=
  .ok { chunk := .Text t, external_id := none }

/-- How many adapter constructions a caller at this program point has
performed (a caller constructs exactly when it passed the miss path). -/
def GetClientPC.constructions : GetClientPC → Nat
  | .start => 0
  | .missed => 0
  | .inserting _ => 1
  | .finished built _ => if built then 1 else 0

/-- Whether a caller finished through the read-lock fast path without
constructing. -/
def GetClientPC.finishedWithoutBuild : GetClientPC → Prop
  | .finished built _ => built = false
  | _ => False

/-- Whether a caller finished after constructing and inserting. -/
def GetClientPC.finishedWithBuild : GetClientPC → Prop
  | .finished built _ => built = true
  | _ => False

/-- Invariant of the two-caller `get_client` interleaving model: the
construction counter counts the callers past the miss path, a fast-path
return can only have happened with a populated cache, a caller that
inserted implies a populated cache, and a populated cache implies at least
one construction. -/
def GetClientInv (cfg : GetClientCfg) : Prop :=
  cfg.constructed = cfg.t1.constructions + cfg.t2.constructions ∧
  (cfg.t1.finishedWithoutBuild → cfg.cache.isSome) ∧
  (cfg.t2.finishedWithoutBuild → cfg.cache.isSome) ∧
  (cfg.t1.finishedWithBuild → cfg.cache.isSome) ∧
  (cfg.t2.finishedWithBuild → cfg.cache.isSome) ∧
  (cfg.cache.isSome → 1 ≤ cfg.constructed)

/-- Accumulated input-usage counter for a key, absent read as zero. -/
def accInput0 (acc : GaiseStreamAccumulator) (k : String) : Nat :=
  match acc.usage with
  | none => 0
  | some u => optLookup0 u.input k

/-- Accumulated output-usage counter for a key, absent read as zero. -/
def accOutput0 (acc : GaiseStreamAccumulator) (k : String) : Nat :=
  match acc.usage with
  | none => 0
  | some u => optLookup0 u.output k

/-- Keys of an association list. -/
def alKeys (m : List (String × Nat)) : List String :=
  m.map (·.1)

/-- An optional usage map has no duplicate keys (true of every `HashMap`). -/
def optNodupKeys (m : Option (List (String × Nat))) : Prop :=
  (alKeys (m.getD [])).Nodup

/-- One step of the declarative Anthropic system-prompt view: a system-role
message whose content is a single `Text` item overwrites the prompt; every
other message leaves it unchanged. -/
def anthropicSysStep (acc : Option String) (m : GaiseMessage) : Option String :=
  if m.role = "system" then
    match m.content with
    | some (OneOrMany.One (GaiseContent.Text text)) => some text
    | _ => acc
  else acc

/-- Declarative view of the Anthropic system handling: the prompt is the text
of the LAST system-role message whose content is a single `Text` item. -/
def lastSystemPrompt (msgs : List GaiseMessage) : Option String :=
  msgs.foldl anthropicSysStep none

/-- Declarative view of one VertexAI system update: a system-role message
with content overwrites the instruction (text for a single `Text` content,
empty otherwise); without content it leaves it unchanged. -/
def vertexSysUpdate (acc : Option GoogleContent) (m : GaiseMessage) :
    Option GoogleContent :=
  if m.role = "system" then
    match m.content with
    | some content =>
      let prompt := match content with
        | OneOrMany.One (GaiseContent.Text text) => text
        | _ => ""
      let part : GooglePart :=
        { text := some prompt, inline_data := none, tool_call := none,
          tool_response := none }
      some { role := "system", parts := [part] }
    | none => acc
  else acc

/-- Declarative view of the VertexAI system instruction over a message list. -/
def vertexSystemInstructionFold (msgs : List GaiseMessage) :
    Option GoogleContent :=
  msgs.foldl vertexSysUpdate none

/-- The `GooglePart` list `add_content` builds for one non-system message. -/
def vertexMessageParts (b64 : List Nat → String)
    (parseJson : String → Option Json) (msg : GaiseMessage) :
    List GooglePart :=
  let parts := match msg.content with
    | some (OneOrMany.One x) => GooglePart.from_gaise b64 x
    | some (OneOrMany.Many items) => GooglePart.from_gaiseList b64 items
    | none => []
  let parts := parts ++ (match msg.tool_calls with
    | some tool_calls => tool_calls.map (fun tc =>
      let args := (tc.function.arguments.bind parseJson).getD (Json.obj [])
      { text := none, inline_data := none,
        tool_call := some { name := tc.function.name, args := args },
        tool_response := none })
    | none => [])
  parts ++ (match msg.tool_call_id, msg.content with
    | some tool_call_id, some content =>
      let response_val := match content with
        | OneOrMany.One (GaiseContent.Text text) =>
          (parseJson text).getD (Json.str text)
        | _ => Json.null
      let tr : GoogleToolResponse :=
        { name := tool_call_id, response := response_val }
      [{ text := none, inline_data := none, tool_call := none,
         tool_response := some tr }]
    | _, _ => [])

/-- The `GoogleContent` entry `add_content` appends to `contents` for one
message (`none` for every system-role message, and for messages whose built
part list is empty). -/
def vertexMsgContent (b64 : List Nat → String)
    (parseJson : String → Option Json) (msg : GaiseMessage) :
    Option GoogleContent :=
  if msg.role = "system" then none
  else
    let parts := vertexMessageParts b64 parseJson msg
    if parts.isEmpty then none
    else some { role := (to_google_role msg.role).getD msg.role, parts }

/-- The system block texts the Bedrock partition loop collects from one
message (empty for every non-system message). -/
def bedrockSystemTexts (msg : GaiseMessage) : List String :=
  if msg.role = "system" then bedrockMessageTexts msg else []

/-- A `ToolCall` stream chunk wrapped as a stream response. -/
def toolCallChunk (index : Nat) (id name arguments ext : Option String) :
    GaiseInstructStreamResponse :=
  { chunk := .ToolCall index id name arguments, external_id := ext }

/-! ## Helper lemmas -/

theorem streamFilterItem_eq (item : Except String GaiseInstructStreamResponse) :
    streamFilterItem item = if keepStreamItem item then some item else none := by
  cases item with
  | ok resp =>
    cases hc : resp.chunk with
    | Text t =>
      by_cases h : t.isEmpty <;>
        simp [streamFilterItem, keepStreamItem, hc, h]
    | ToolCall i id name args => simp [streamFilterItem, keepStreamItem, hc]
    | Usage u => simp [streamFilterItem, keepStreamItem, hc]
  | error e => simp [streamFilterItem, keepStreamItem]

theorem filterStream_eq_filter
    (items : List (Except String GaiseInstructStreamResponse)) :
    filterStream items = items.filter keepStreamItem := by
  induction items with
  | nil => rfl
  | cons x xs ih =>
    simp only [filterStream, List.filterMap_cons, streamFilterItem_eq,
      List.filter_cons] at *
    by_cases h : keepStreamItem x <;> simp [h, ih]

theorem isEmptyTextItem_eq_not_keep
    (item : Except String GaiseInstructStreamResponse) :
    isEmptyTextItem item = !keepStreamItem item := by
  cases item with
  | ok resp => cases hc : resp.chunk <;> simp [isEmptyTextItem, keepStreamItem, hc]
  | error e => simp [isEmptyTextItem, keepStreamItem]

theorem filterStream_error_projection
    (items : List (Except String GaiseInstructStreamResponse)) :
    (filterStream items).filterMap streamItemError
      = items.filterMap streamItemError := by
  induction items with
  | nil => rfl
  | cons x xs ih =>
    simp only [filterStream, List.filterMap_cons] at *
    cases x with
    | ok resp =>
      cases hc : resp.chunk with
      | Text t =>
        by_cases h : t.isEmpty <;>
          simp [streamFilterItem, hc, h, streamItemError, List.filterMap_cons, ih]
      | ToolCall i id name args =>
        simp [streamFilterItem, hc, streamItemError, List.filterMap_cons, ih]
      | Usage u =>
        simp [streamFilterItem, hc, streamItemError, List.filterMap_cons, ih]
    | error e =>
      simp [streamFilterItem, streamItemError, List.filterMap_cons, ih]

/-! ## Claim theorems -/

/-- C8: through the registry's `instruct_stream`, no delivered item is a
successful `Text("")` chunk: every empty-text chunk is dropped and every
other item is delivered in order (the output is exactly the order-preserving
filter of the adapter's stream); in particular a mock adapter emitting the
text chunks `"Hello"`, `""`, `" World"` yields exactly the two items
`"Hello"` and `" World"`. -/
theorem registry_stream_filters_empty_text :
    (∀ items : List (Except String GaiseInstructStreamResponse),
      (∀ item ∈ filterStream items, isEmptyTextItem item = false) ∧
      filterStream items = items.filter keepStreamItem) ∧
    (∀ (getClient : String → Except String StreamAdapter)
       (request : GaiseInstructRequest) (pm : String × String)
       (client : StreamAdapter)
       (items : List (Except String GaiseInstructStreamResponse)),
      parse_model request.model = Except.ok pm →
      getClient pm.1 = Except.ok client →
      client { request with model := pm.2 } = Except.ok items →
      registryInstructStream getClient request
        = Except.ok (filterStream items)) ∧
    registryInstructStream
      (fun _ => Except.ok (fun _ => Except.ok
        [textItem "Hello", textItem "", textItem " World"]))
      { model := "mock::m", correlation_id := none, tools := none,
        tool_config := none, generation_config := none,
        input := OneOrMany.Many [] }
      = Except.ok [textItem "Hello", textItem " World"] := by
  refine ⟨fun items => ⟨?_, filterStream_eq_filter items⟩, ?_, ?_⟩
  · intro item hmem
    rw [filterStream_eq_filter] at hmem
    have hk := List.of_mem_filter hmem
    rw [isEmptyTextItem_eq_not_keep, hk]
    rfl
  · intro getClient request pm client items hp hc hcl
    simp [registryInstructStream, hp, hc, hcl, Except.bind, Bind.bind,
      Except.map, Functor.map, Pure.pure, Except.pure]
  · rfl

/-- C8 witness: the universally quantified parts applied at a concrete
stream and a concrete resolved adapter. -/
theorem registry_stream_filters_empty_text_witness :
    filterStream [textItem "", textItem "a"] = [textItem "a"] ∧
    registryInstructStream
      (fun _ => Except.ok (fun _ => Except.ok [textItem "", textItem "a"]))
      { model := "p::m", correlation_id := none, tools := none,
        tool_config := none, generation_config := none,
        input := OneOrMany.Many [] }
      = Except.ok (filterStream [textItem "", textItem "a"]) := by
  refine ⟨?_, ?_⟩
  · have h := (registry_stream_filters_empty_text.1
      [textItem "", textItem "a"]).2
    rw [h]; rfl
  · exact registry_stream_filters_empty_text.2.1
      (fun _ => Except.ok (fun _ => Except.ok [textItem "", textItem "a"]))
      _ ("p", "m") _ [textItem "", textItem "a"] rfl rfl rfl

/-- C9: through the registry's `instruct_stream`, every error item of the
adapter's stream is delivered to the caller unmodified and in relative
order (the error projection of the delivered stream equals that of the
adapter stream), the delivered stream is a sublist of the adapter stream
(items are never transformed or reordered), every error item is delivered,
and a mid-stream error is a per-item value, not an abort: a mock stream
`[ok "Hello", error "boom", ok "World"]` is delivered whole. -/
theorem registry_stream_error_passthrough :
    (∀ items : List (Except String GaiseInstructStreamResponse),
      (filterStream items).filterMap streamItemError
        = items.filterMap streamItemError ∧
      List.Sublist (filterStream items) items ∧
      (∀ e : String, Except.error e ∈ items →
        Except.error e ∈ filterStream items)) ∧
    registryInstructStream
      (fun _ => Except.ok (fun _ => Except.ok
        [textItem "Hello", Except.error "boom", textItem "World"]))
      { model := "mock::m", correlation_id := none, tools := none,
        tool_config := none, generation_config := none,
        input := OneOrMany.Many [] }
      = Except.ok [textItem "Hello", Except.error "boom", textItem "World"] := by
  refine ⟨fun items => ⟨filterStream_error_projection items, ?_, ?_⟩, ?_⟩
  · rw [filterStream_eq_filter]
    exact List.filter_sublist items
  · intro e hmem
    rw [filterStream_eq_filter]
    exact List.mem_filter.mpr ⟨hmem, rfl⟩
  · rfl

/-- C9 witness: the quantified part applied at a concrete stream containing
an error item. -/
theorem registry_stream_error_passthrough_witness :
    (filterStream [Except.error "boom", textItem ""]).filterMap streamItemError
      = [Except.error "boom",
         (textItem "" : Except String GaiseInstructStreamResponse)].filterMap
          streamItemError ∧
    (Except.error "boom" :
        Except String GaiseInstructStreamResponse) ∈
      filterStream [Except.error "boom", textItem ""] := by
  refine ⟨(registry_stream_error_passthrough.1
      [Except.error "boom", textItem ""]).1, ?_⟩
  exact (registry_stream_error_passthrough.1
      [Except.error "boom", textItem ""]).2.2 "boom" (by simp)

/-- C10: for every request accepted by the registry's `instruct`,
`instruct_stream` or `embeddings`, the request forwarded to the resolved
adapter agrees with the caller's request on every field except `model`
(rewritten to the bare model id), and for `instruct` and `embeddings` the
registry's result is exactly the adapter's result, so a successful response
is returned unchanged in every field. -/
theorem registry_frame_conditions :
    (∀ (request : GaiseInstructRequest) (pm : String × String),
      parse_model request.model = Except.ok pm →
      ({ request with model := pm.2 } : GaiseInstructRequest).correlation_id
          = request.correlation_id ∧
      ({ request with model := pm.2 } : GaiseInstructRequest).tools
          = request.tools ∧
      ({ request with model := pm.2 } : GaiseInstructRequest).tool_config
          = request.tool_config ∧
      ({ request with model := pm.2 } : GaiseInstructRequest).generation_config
          = request.generation_config ∧
      ({ request with model := pm.2 } : GaiseInstructRequest).input
          = request.input ∧
      ({ request with model := pm.2 } : GaiseInstructRequest).model = pm.2 ∧
      (∀ (getClient : String → Except String InstructAdapter)
         (client : InstructAdapter),
        getClient pm.1 = Except.ok client →
        registryInstruct getClient request
          = client { request with model := pm.2 }) ∧
      (∀ (getClient : String → Except String StreamAdapter)
         (client : StreamAdapter),
        getClient pm.1 = Except.ok client →
        registryInstructStream getClient request
          = (client { request with model := pm.2 }).map filterStream)) ∧
    (∀ (request : GaiseEmbeddingsRequest) (pm : String × String),
      parse_model request.model = Except.ok pm →
      ({ request with model := pm.2 } : GaiseEmbeddingsRequest).correlation_id
          = request.correlation_id ∧
      ({ request with model := pm.2 } : GaiseEmbeddingsRequest).input
          = request.input ∧
      ({ request with model := pm.2 } : GaiseEmbeddingsRequest).model = pm.2 ∧
      (∀ (getClient : String → Except String EmbeddingsAdapter)
         (client : EmbeddingsAdapter),
        getClient pm.1 = Except.ok client →
        registryEmbeddings getClient request
          = client { request with model := pm.2 })) := by
  constructor
  · intro request pm hp
    refine ⟨rfl, rfl, rfl, rfl, rfl, rfl, ?_, ?_⟩
    · intro getClient client hc
      simp [registryInstruct, hp, hc, Except.bind, Bind.bind]
    · intro getClient client hc
      cases hcl : client { request with model := pm.2 } with
      | ok items =>
        simp [registryInstructStream, hp, hc, hcl, Except.bind, Bind.bind,
          Except.map, Functor.map, Pure.pure, Except.pure]
      | error e =>
        simp [registryInstructStream, hp, hc, hcl, Except.bind, Bind.bind,
          Except.map, Functor.map, Pure.pure, Except.pure]
  · intro request pm hp
    refine ⟨rfl, rfl, rfl, ?_⟩
    intro getClient client hc
    simp [registryEmbeddings, hp, hc, Except.bind, Bind.bind]

/-- C10 witness: the frame conditions applied at a concrete request and a
concrete resolved adapter. -/
theorem registry_frame_conditions_witness :
    registryInstruct (fun _ => Except.ok (fun r => Except.error r.model))
      { model := "p::m", correlation_id := some "cid", tools := none,
        tool_config := none, generation_config := none,
        input := OneOrMany.Many [] }
      = Except.error "m" := by
  have h := (registry_frame_conditions.1
    { model := "p::m", correlation_id := some "cid", tools := none,
      tool_config := none, generation_config := none,
      input := OneOrMany.Many [] } ("p", "m") rfl).2.2.2.2.2.2.1
    (fun _ => Except.ok (fun r => Except.error r.model))
    (fun r => Except.error r.model) rfl
  simpa using h

/-- C7: `get_token` fetches exactly when the cached token is the empty
string or the current time plus the 5-minute skew is at or past the
recorded expiry; on a fetch it stores the new token, token type and
`expires_at = now + expires_in` and returns the new token, otherwise it
performs zero fetches and returns the cached state and token unchanged.
In particular the freshly initialised cache (no `expires_at`) fetches
exactly once, and a non-empty token expiring 10 minutes from now fetches
zero times. -/
theorem get_token_refresh_policy :
    (∀ (state : TokenState) (now : Int) (fetched : GoogleAccessToken),
      ((get_token state now fetched).2.2 = 1 ↔
        (state.access_token = "" ∨
          ∃ exp, state.expires_at = some exp ∧ now + refreshSkew ≥ exp)) ∧
      (needsRefresh state now = true →
        get_token state now fetched =
          ({ access_token := fetched.access_token,
             token_type := fetched.token_type,
             expires_at := some (now + (fetched.expires_in : Int)) },
           fetched.access_token, 1)) ∧
      (needsRefresh state now = false →
        get_token state now fetched = (state, state.access_token, 0))) ∧
    (∀ (now : Int) (fetched : GoogleAccessToken),
      (get_token initTokenState now fetched).2.2 = 1) ∧
    (∀ (now : Int) (fetched : GoogleAccessToken) (state : TokenState),
      state.access_token ≠ "" →
      state.expires_at = some (now + 600) →
      get_token state now fetched = (state, state.access_token, 0)) := by
  have hneed : ∀ (state : TokenState) (now : Int),
      needsRefresh state now = true ↔
        (state.access_token = "" ∨
          ∃ exp, state.expires_at = some exp ∧ now + refreshSkew ≥ exp) := by
    intro state now
    cases hs : state.expires_at with
    | none => simp [needsRefresh, hs, String.isEmpty_iff]
    | some exp => simp [needsRefresh, hs, String.isEmpty_iff]
  refine ⟨fun state now fetched => ⟨?_, ?_, ?_⟩, ?_, ?_⟩
  · rw [← hneed state now]
    by_cases h : needsRefresh state now <;> simp [get_token, h]
  · intro h; simp [get_token, h]
  · intro h; simp [get_token, h]
  · intro now fetched; rfl
  · intro now fetched state h1 h2
    have hb : state.access_token.isEmpty = false := by
      rcases hb2 : state.access_token.isEmpty with _ | _
      · rfl
      · exact absurd ((String.isEmpty_iff _).mp hb2) h1
    have h : needsRefresh state now = false := by
      simp only [needsRefresh, h2, hb, Bool.false_or, refreshSkew,
        decide_eq_false_iff_not]
      omega
    simp [get_token, h]

/-- C7 witness: the policy applied at the initial state (one fetch, cache
updated) and at a fresh cache expiring 10 minutes out (zero fetches). -/
theorem get_token_refresh_policy_witness :
    get_token initTokenState 1000
        { access_token := "tok", token_type := "Bearer", expires_in := 3600 }
      = ({ access_token := "tok", token_type := "Bearer",
           expires_at := some 4600 }, "tok", 1) ∧
    get_token { access_token := "tok", token_type := "Bearer",
                expires_at := some 1600 } 1000
        { access_token := "tok2", token_type := "Bearer", expires_in := 3600 }
      = ({ access_token := "tok", token_type := "Bearer",
           expires_at := some 1600 }, "tok", 0) := by
  constructor
  · have h := ((get_token_refresh_policy.1 initTokenState 1000
      { access_token := "tok", token_type := "Bearer",
        expires_in := 3600 }).2.1) (by decide)
    simpa using h
  · have h := get_token_refresh_policy.2.2 1000
      { access_token := "tok2", token_type := "Bearer", expires_in := 3600 }
      { access_token := "tok", token_type := "Bearer",
        expires_at := some 1600 } (by decide) (by norm_num)
    simpa using h

theorem splitFirstSep_eq_none :
    ∀ (s : List Char), containsSep s = false → splitFirstSep s = none := by
  intro s
  induction s with
  | nil => intro _; rfl
  | cons c rest ih =>
    intro h
    simp only [containsSep, Bool.or_eq_false_iff, Bool.and_eq_false_iff,
      beq_eq_false_iff_ne, ne_eq] at h
    obtain ⟨hhead, hrest⟩ := h
    unfold splitFirstSep
    by_cases hc : c = ':'
    · subst hc
      cases rest with
      | nil => simp [splitFirstSep]
      | cons c2 rest2 =>
        have hc2 : c2 ≠ ':' := by
          rcases hhead with h' | h'
          · exact absurd rfl h'
          · simpa using h'
        rw [if_pos rfl]
        split
        · next r0 tail heq =>
          exact absurd (List.cons.inj heq).1 hc2
        · next =>
          rw [ih hrest]
          rfl
    · rw [if_neg hc]
      rw [ih hrest]
      rfl

theorem splitFirstSep_append :
    ∀ (p r : List Char), containsSep p = false → lastIsColon p = false →
      splitFirstSep (p ++ ':' :: ':' :: r) = some (p, r) := by
  intro p
  induction p with
  | nil =>
    intro r _ _
    simp [splitFirstSep]
  | cons a p' ih =>
    intro r h1 h2
    simp only [containsSep, Bool.or_eq_false_iff, Bool.and_eq_false_iff,
      beq_eq_false_iff_ne, ne_eq] at h1
    obtain ⟨hhead, hrest⟩ := h1
    cases p' with
    | nil =>
      have ha : a ≠ ':' := by
        simp only [lastIsColon] at h2
        simpa using h2
      show splitFirstSep (a :: ':' :: ':' :: r) = some ([a], r)
      unfold splitFirstSep
      simp only [if_neg ha]
      have : splitFirstSep (':' :: ':' :: r) = some ([], r) := by
        simp [splitFirstSep]
      rw [this]
      rfl
    | cons b p'' =>
      have h2' : lastIsColon (b :: p'') = false := h2
      by_cases ha : a = ':'
      · subst ha
        have hb : b ≠ ':' := by
          rcases hhead with h' | h'
          · exact absurd rfl h'
          · simpa using h'
        show splitFirstSep (':' :: ((b :: p'') ++ ':' :: ':' :: r)) = _
        unfold splitFirstSep
        rw [if_pos rfl]
        split
        · next r0 tail heq =>
          have hbb : b = ':' := by
            have := (List.cons.inj (by simpa using heq)).1
            exact this
          exact absurd hbb hb
        · next =>
          rw [ih r hrest h2']
          rfl
      · show splitFirstSep (a :: ((b :: p'') ++ ':' :: ':' :: r)) = _
        unfold splitFirstSep
        rw [if_neg ha]
        rw [ih r hrest h2']
        rfl

/-- C2 counterexample: for `p = "a:"` (which contains no `"::"`) and
`rest = "b"`, the string `p ++ "::" ++ rest = "a:::b"` has its FIRST `"::"`
occurrence straddling the end of `p`, so `parse_model` returns
`("a", ":b")` and not `(p, rest) = ("a:", "b")`; the claim's universally
quantified second part is therefore false at this input. -/
theorem parse_model_counterexample :
    containsSepStr "a:" = false ∧
    parse_model ("a:" ++ "::" ++ "b") = Except.ok ("a", ":b") ∧
    (("a", ":b") : String × String) ≠ (("a:", "b") : String × String) := by
  refine ⟨by decide, by rfl, by decide⟩

/-- C2 (amended): every string without `"::"` fails with the
`BadModelFormat` error; and for every decomposition `p ++ "::" ++ rest`
where `p` contains no `"::"` AND does not end in `':'` (so the separator
shown is the first `"::"` occurrence), `parse_model` returns `(p, rest)`
and the registry's dispatch passes the resolved adapter a request whose
`model` field equals exactly `rest`. -/
theorem parse_model_split_first :
    (∀ s : String, containsSepStr s = false →
      parse_model s = Except.error badModelFormatMsg) ∧
    (∀ p rest : String, containsSepStr p = false → lastIsColonStr p = false →
      parse_model (p ++ "::" ++ rest) = Except.ok (p, rest) ∧
      (∀ (request : GaiseInstructRequest)
         (getClient : String → Except String InstructAdapter)
         (client : InstructAdapter),
        request.model = p ++ "::" ++ rest →
        getClient p = Except.ok client →
        registryInstruct getClient request
          = client { request with model := rest })) := by
  have hparse : ∀ p rest : String, containsSepStr p = false →
      lastIsColonStr p = false →
      parse_model (p ++ "::" ++ rest) = Except.ok (p, rest) := by
    intro p rest h1 h2
    unfold parse_model
    have hdata : (p ++ "::" ++ rest).data
        = p.data ++ ':' :: ':' :: rest.data := by
      rw [String.data_append, String.data_append]
      simp [List.append_assoc]
    rw [hdata, splitFirstSep_append p.data rest.data h1 h2]
  refine ⟨?_, fun p rest h1 h2 => ⟨hparse p rest h1 h2, ?_⟩⟩
  · intro s h
    unfold parse_model
    rw [splitFirstSep_eq_none s.data h]
  · intro request getClient client hm hc
    simp [registryInstruct, hm, hparse p rest h1 h2, hc, Except.bind,
      Bind.bind]

/-- C2 witness: the amended theorem applied at concrete model strings. -/
theorem parse_model_split_first_witness :
    parse_model "openai::gpt-4o" = Except.ok ("openai", "gpt-4o") ∧
    parse_model "gpt-4o" = Except.error badModelFormatMsg := by
  constructor
  · have h := (parse_model_split_first.2 "openai" "gpt-4o"
      (by decide) (by decide)).1
    have he : ("openai" ++ "::" ++ "gpt-4o" : String) = "openai::gpt-4o" := rfl
    rw [he] at h
    exact h
  · exact parse_model_split_first.1 "gpt-4o" (by decide)

theorem btreeFind_eq_none_of_lt (m : List (Nat × GaiseToolCall)) (k : Nat)
    (h : ∀ e ∈ m, k < e.1) : btreeFind k m = none := by
  induction m with
  | nil => rfl
  | cons e rest ih =>
    obtain ⟨k', v⟩ := e
    have hk : k ≠ k' := Nat.ne_of_lt (h (k', v) (by simp))
    simp only [btreeFind, if_neg hk]
    exact ih (fun x hx => h x (by simp [hx]))

theorem sortedKeys_head_lt (k' : Nat) (v : GaiseToolCall)
    (rest : List (Nat × GaiseToolCall)) (h : sortedKeys ((k', v) :: rest)) :
    ∀ e ∈ rest, k' < e.1 := by
  haveI : IsTrans (Nat × GaiseToolCall) (fun a b => a.1 < b.1) :=
    ⟨fun _ _ _ h1 h2 => lt_trans h1 h2⟩
  have hp := List.chain'_iff_pairwise.mp h
  exact fun e he => (List.pairwise_cons.mp hp).1 e he

theorem btreeFind_update_self (k : Nat) (d : GaiseToolCall)
    (f : GaiseToolCall → GaiseToolCall) :
    ∀ (m : List (Nat × GaiseToolCall)), sortedKeys m →
      btreeFind k (btreeUpdate k d f m)
        = some (f ((btreeFind k m).getD d)) := by
  intro m
  induction m with
  | nil => intro _; simp [btreeUpdate, btreeFind]
  | cons e rest ih =>
    intro hs
    obtain ⟨k', v⟩ := e
    by_cases h1 : k = k'
    · subst h1
      simp [btreeUpdate, btreeFind]
    · by_cases h2 : k < k'
      · have hnone : btreeFind k rest = none := by
          apply btreeFind_eq_none_of_lt
          intro e he
          exact lt_trans h2 (sortedKeys_head_lt k' v rest hs e he)
        simp [btreeUpdate, h1, h2, btreeFind, hnone]
      · have hs' : sortedKeys rest := hs.tail
        simp [btreeUpdate, h1, h2, btreeFind, ih hs']

theorem btreeFind_update_other (k j : Nat) (d : GaiseToolCall)
    (f : GaiseToolCall → GaiseToolCall) (hne : j ≠ k) :
    ∀ (m : List (Nat × GaiseToolCall)), sortedKeys m →
      btreeFind j (btreeUpdate k d f m) = btreeFind j m := by
  intro m
  induction m with
  | nil => intro _; simp [btreeUpdate, btreeFind, hne]
  | cons e rest ih =>
    intro hs
    obtain ⟨k', v⟩ := e
    by_cases h1 : k = k'
    · subst h1
      simp [btreeUpdate, btreeFind, hne]
    · by_cases h2 : k < k'
      · simp [btreeUpdate, h1, h2, btreeFind, hne]
      · by_cases h3 : j = k'
        · simp [btreeUpdate, h1, h2, btreeFind, h3]
        · simp [btreeUpdate, h1, h2, btreeFind, h3, ih hs.tail]

theorem push_toolcall_tool_calls (acc : GaiseStreamAccumulator) (index : Nat)
    (id name arguments : Option String) (ext : Option String) :
    (acc.push (toolCallChunk index id name arguments ext)).tool_calls
      = btreeUpdate index newToolCallBuilder
          (appendToolCallFields id name arguments) acc.tool_calls := by
  by_cases h : acc.external_id.isNone <;>
    simp [GaiseStreamAccumulator.push, toolCallChunk, h]

/-- C5: pushing a `ToolCall` stream chunk locates or creates the builder at
the chunk's index (other indices untouched), appends each present field
onto the builder's corresponding field, and a newly created builder gets
type `"function"`; in particular pushing the two fragments of the claim
yields exactly one tool call with id `"call_1"`, name `"get_weather"` and
arguments `{"location": "London"}`. -/
theorem accumulator_tool_call_push :
    (∀ (acc : GaiseStreamAccumulator) (index : Nat)
       (id name arguments ext : Option String),
      sortedKeys acc.tool_calls →
      (acc.push (toolCallChunk index id name arguments ext)).tool_calls
        = btreeUpdate index newToolCallBuilder
            (appendToolCallFields id name arguments) acc.tool_calls ∧
      btreeFind index
          (acc.push (toolCallChunk index id name arguments ext)).tool_calls
        = some (appendToolCallFields id name arguments
            ((btreeFind index acc.tool_calls).getD newToolCallBuilder)) ∧
      (∀ j, j ≠ index →
        btreeFind j
            (acc.push (toolCallChunk index id name arguments ext)).tool_calls
          = btreeFind j acc.tool_calls) ∧
      (appendToolCallFields id name arguments newToolCallBuilder).type
        = "function") ∧
    (pushAll
      [toolCallChunk 0 (some "call_1") (some "get_weather")
         (some "\x7b\"loc") none,
       toolCallChunk 0 none none
         (some "ation\": \"London\"\x7d") none]).tool_calls
      = [(0, { id := "call_1", type := "function",
               function := { name := "get_weather", arguments := some "\x7b\"location\": \"London\"\x7d" } })] := by
  constructor
  · intro acc index id name arguments ext hs
    refine ⟨push_toolcall_tool_calls acc index id name arguments ext, ?_, ?_, ?_⟩
    · rw [push_toolcall_tool_calls]
      exact btreeFind_update_self index newToolCallBuilder
        (appendToolCallFields id name arguments) acc.tool_calls hs
    · intro j hj
      rw [push_toolcall_tool_calls]
      exact btreeFind_update_other index j newToolCallBuilder
        (appendToolCallFields id name arguments) hj acc.tool_calls hs
    · cases id <;> cases name <;> cases arguments <;> rfl
  · rfl

/-- C5 witness: the quantified part applied at a fresh accumulator and a
concrete fragment. -/
theorem accumulator_tool_call_push_witness :
    btreeFind 0 (GaiseStreamAccumulator.new.push
        (toolCallChunk 0 (some "a") none none none)).tool_calls
      = some (appendToolCallFields (some "a") none none newToolCallBuilder) := by
  have h := (accumulator_tool_call_push.1 GaiseStreamAccumulator.new 0
    (some "a") none none none
    (by simp [GaiseStreamAccumulator.new, sortedKeys])).2.1
  exact h

theorem mapLookup0_addEntry (m : List (String × Nat)) (k1 : String) (v1 : Nat)
    (k : String) :
    mapLookup0 (mapAddEntry m k1 v1) k
      = mapLookup0 m k + (if k = k1 then v1 else 0) := by
  induction m with
  | nil => by_cases h : k = k1 <;> simp [mapAddEntry, mapLookup0, h]
  | cons e rest ih =>
    obtain ⟨k', v'⟩ := e
    by_cases h1 : k1 = k'
    · subst h1
      by_cases h2 : k = k1 <;> simp [mapAddEntry, mapLookup0, h2]
    · by_cases h2 : k = k'
      · have hkk1 : ¬ k = k1 := by
          rw [h2]; exact fun hh => h1 hh.symm
        have h1' : ¬ k' = k1 := fun hh => h1 hh.symm
        simp [mapAddEntry, h1, mapLookup0, h2, hkk1, h1']
      · simp [mapAddEntry, h1, mapLookup0, h2, ih]

theorem mapLookup0_eq_zero_of_not_mem (u : List (String × Nat)) (k : String)
    (h : k ∉ alKeys u) : mapLookup0 u k = 0 := by
  induction u with
  | nil => rfl
  | cons e rest ih =>
    obtain ⟨k', v'⟩ := e
    simp only [alKeys, List.map_cons, List.mem_cons, not_or] at h
    obtain ⟨h1, h2⟩ := h
    simp only [mapLookup0, if_neg h1]
    exact ih h2

theorem mapLookup0_merge (u : List (String × Nat)) :
    (alKeys u).Nodup → ∀ (m : List (String × Nat)) (k : String),
      mapLookup0 (mapMerge m u) k = mapLookup0 m k + mapLookup0 u k := by
  induction u with
  | nil => intro _ m k; simp [mapMerge, mapLookup0]
  | cons e rest ih =>
    intro hnd m k
    obtain ⟨k1, v1⟩ := e
    simp only [alKeys, List.map_cons, List.nodup_cons] at hnd
    obtain ⟨hk1, hnd'⟩ := hnd
    have hstep : mapMerge m ((k1, v1) :: rest)
        = mapMerge (mapAddEntry m k1 v1) rest := rfl
    rw [hstep, ih hnd' (mapAddEntry m k1 v1) k, mapLookup0_addEntry]
    by_cases h : k = k1
    · subst h
      have hz : mapLookup0 rest k = 0 :=
        mapLookup0_eq_zero_of_not_mem rest k (by simpa [alKeys] using hk1)
      simp [mapLookup0, hz]
    · simp [mapLookup0, h]

theorem push_usage_usage (acc : GaiseStreamAccumulator) (u : GaiseUsage) :
    (acc.push (usageChunk u)).usage
      = some (
        let current := acc.usage.getD { input := none, output := none }
        let current := match u.input with
          | some input =>
            { current with
                input := some (mapMerge (current.input.getD []) input) }
          | none => current
        match u.output with
        | some output =>
          { current with
              output := some (mapMerge (current.output.getD []) output) }
        | none => current) := by
  by_cases h : acc.external_id.isNone <;>
    simp [GaiseStreamAccumulator.push, usageChunk, h]

theorem push_usage_input (acc : GaiseStreamAccumulator) (u : GaiseUsage)
    (k : String) (hnd : optNodupKeys u.input) :
    accInput0 (acc.push (usageChunk u)) k
      = accInput0 acc k + optLookup0 u.input k := by
  rw [accInput0, push_usage_usage]
  cases hui : u.input with
  | none =>
    cases huo : u.output with
    | none =>
      cases hacc : acc.usage <;>
        simp [accInput0, hacc, optLookup0, mapLookup0]
    | some output =>
      cases hacc : acc.usage <;>
        simp [accInput0, hacc, optLookup0, mapLookup0]
  | some input =>
    rw [optNodupKeys, hui] at hnd
    cases huo : u.output with
    | none =>
      cases hacc : acc.usage with
      | none =>
        simp [accInput0, hacc, optLookup0, mapLookup0,
          mapLookup0_merge input (by simpa using hnd) [] k]
      | some u0 =>
        simp [accInput0, hacc, optLookup0,
          mapLookup0_merge input (by simpa using hnd) (u0.input.getD []) k]
    | some output =>
      cases hacc : acc.usage with
      | none =>
        simp [accInput0, hacc, optLookup0, mapLookup0,
          mapLookup0_merge input (by simpa using hnd) [] k]
      | some u0 =>
        simp [accInput0, hacc, optLookup0,
          mapLookup0_merge input (by simpa using hnd) (u0.input.getD []) k]

theorem push_usage_output (acc : GaiseStreamAccumulator) (u : GaiseUsage)
    (k : String) (hnd : optNodupKeys u.output) :
    accOutput0 (acc.push (usageChunk u)) k
      = accOutput0 acc k + optLookup0 u.output k := by
  rw [accOutput0, push_usage_usage]
  cases huo : u.output with
  | none =>
    cases hui : u.input with
    | none =>
      cases hacc : acc.usage <;>
        simp [accOutput0, hacc, optLookup0, mapLookup0]
    | some input =>
      cases hacc : acc.usage <;>
        simp [accOutput0, hacc, optLookup0, mapLookup0]
  | some output =>
    rw [optNodupKeys, huo] at hnd
    cases hui : u.input with
    | none =>
      cases hacc : acc.usage with
      | none =>
        simp [accOutput0, hacc, optLookup0, mapLookup0,
          mapLookup0_merge output (by simpa using hnd) [] k]
      | some u0 =>
        simp [accOutput0, hacc, optLookup0,
          mapLookup0_merge output (by simpa using hnd) (u0.output.getD []) k]
    | some input =>
      cases hacc : acc.usage with
      | none =>
        simp [accOutput0, hacc, optLookup0, mapLookup0,
          mapLookup0_merge output (by simpa using hnd) [] k]
      | some u0 =>
        simp [accOutput0, hacc, optLookup0,
          mapLookup0_merge output (by simpa using hnd) (u0.output.getD []) k]

theorem pushUsageList_input (us : List GaiseUsage)
    (hnd : ∀ u ∈ us, optNodupKeys u.input) :
    ∀ (acc : GaiseStreamAccumulator) (k : String),
      accInput0 (us.foldl (fun a u => a.push (usageChunk u)) acc) k
        = accInput0 acc k + (us.map (fun u => optLookup0 u.input k)).sum := by
  induction us with
  | nil => intro acc k; simp
  | cons u rest ih =>
    intro acc k
    simp only [List.foldl_cons, List.map_cons, List.sum_cons]
    rw [ih (fun x hx => hnd x (by simp [hx])) (acc.push (usageChunk u)) k,
      push_usage_input acc u k (hnd u (by simp))]
    omega

theorem pushUsageList_output (us : List GaiseUsage)
    (hnd : ∀ u ∈ us, optNodupKeys u.output) :
    ∀ (acc : GaiseStreamAccumulator) (k : String),
      accOutput0 (us.foldl (fun a u => a.push (usageChunk u)) acc) k
        = accOutput0 acc k + (us.map (fun u => optLookup0 u.output k)).sum := by
  induction us with
  | nil => intro acc k; simp
  | cons u rest ih =>
    intro acc k
    simp only [List.foldl_cons, List.map_cons, List.sum_cons]
    rw [ih (fun x hx => hnd x (by simp [hx])) (acc.push (usageChunk u)) k,
      push_usage_output acc u k (hnd u (by simp))]
    omega

/-- C6: pushing a sequence of `Usage` stream chunks yields usage maps whose
input and output counters are, per key, the integer sums of the pushed
maps' counters with absent keys read as zero; in particular pushing
`Usage{input:{"prompt":10}}` then `Usage{output:{"completion":5}}` yields a
usage with both keys present, with values 10 and 5. -/
theorem accumulator_usage_merge :
    (∀ (us : List GaiseUsage) (k : String),
      (∀ u ∈ us, optNodupKeys u.input ∧ optNodupKeys u.output) →
      accInput0 (pushAll (us.map usageChunk)) k
        = (us.map (fun u => optLookup0 u.input k)).sum ∧
      accOutput0 (pushAll (us.map usageChunk)) k
        = (us.map (fun u => optLookup0 u.output k)).sum) ∧
    (pushAll [usageChunk { input := some [("prompt", 10)], output := none },
              usageChunk { input := none,
                           output := some [("completion", 5)] }]).usage
      = some { input := some [("prompt", 10)],
               output := some [("completion", 5)] } := by
  constructor
  · intro us k hnd
    have hfold : pushAll (us.map usageChunk)
        = us.foldl (fun a u => a.push (usageChunk u))
            GaiseStreamAccumulator.new := by
      rw [pushAll, List.foldl_map]
    constructor
    · rw [hfold, pushUsageList_input us (fun u hu => (hnd u hu).1)
        GaiseStreamAccumulator.new k]
      simp [accInput0, GaiseStreamAccumulator.new]
    · rw [hfold, pushUsageList_output us (fun u hu => (hnd u hu).2)
        GaiseStreamAccumulator.new k]
      simp [accOutput0, GaiseStreamAccumulator.new]
  · rfl

/-- C6 witness: the quantified part applied at the claim's concrete pushed
sequence and keys. -/
theorem accumulator_usage_merge_witness :
    accInput0 (pushAll
      ([{ input := some [("prompt", 10)], output := none },
        { input := none, output := some [("completion", 5)] }].map
          usageChunk)) "prompt" = 10 ∧
    accOutput0 (pushAll
      ([{ input := some [("prompt", 10)], output := none },
        { input := none, output := some [("completion", 5)] }].map
          usageChunk)) "completion" = 5 := by
  constructor
  · have h := (accumulator_usage_merge.1
      [{ input := some [("prompt", 10)], output := none },
       { input := none, output := some [("completion", 5)] }] "prompt"
      (by simp [optNodupKeys, alKeys])).1
    rw [h]
    rfl
  · have h := (accumulator_usage_merge.1
      [{ input := some [("prompt", 10)], output := none },
       { input := none, output := some [("completion", 5)] }] "completion"
      (by simp [optNodupKeys, alKeys])).2
    rw [h]
    rfl

theorem getClientInv_init : GetClientInv getClientInit := by
  refine ⟨rfl, ?_, ?_, ?_, ?_, ?_⟩ <;>
    simp [getClientInit, GetClientPC.finishedWithoutBuild,
      GetClientPC.finishedWithBuild]

theorem getClientInv_step (cfg : GetClientCfg) (who : Bool)
    (h : GetClientInv cfg) : GetClientInv (getClientStep cfg who) := by
  obtain ⟨h1, h2, h3, h4, h5, h6⟩ := h
  cases who
  · cases hpc : cfg.t1 with
    | start =>
      cases hcache : cfg.cache with
      | none =>
        exact ⟨by simp_all [getClientStep, getClientThreadStep,
            GetClientPC.constructions],
          by simp_all [getClientStep, getClientThreadStep,
            GetClientPC.finishedWithoutBuild],
          by simp_all [getClientStep, getClientThreadStep,
            GetClientPC.finishedWithoutBuild],
          by simp_all [getClientStep, getClientThreadStep,
            GetClientPC.finishedWithBuild],
          by simp_all [getClientStep, getClientThreadStep,
            GetClientPC.finishedWithBuild],
          by simp_all [getClientStep, getClientThreadStep]⟩
      | some id =>
        exact ⟨by simp_all [getClientStep, getClientThreadStep,
            GetClientPC.constructions],
          by simp_all [getClientStep, getClientThreadStep,
            GetClientPC.finishedWithoutBuild],
          by simp_all [getClientStep, getClientThreadStep,
            GetClientPC.finishedWithoutBuild],
          by simp_all [getClientStep, getClientThreadStep,
            GetClientPC.finishedWithBuild],
          by simp_all [getClientStep, getClientThreadStep,
            GetClientPC.finishedWithBuild],
          by simp_all [getClientStep, getClientThreadStep]⟩
    | missed =>
      exact ⟨by simp_all [getClientStep, getClientThreadStep,
          GetClientPC.constructions]; omega,
        by simp_all [getClientStep, getClientThreadStep,
          GetClientPC.finishedWithoutBuild],
        by simp_all [getClientStep, getClientThreadStep,
          GetClientPC.finishedWithoutBuild],
        by simp_all [getClientStep, getClientThreadStep,
          GetClientPC.finishedWithBuild],
        by simp_all [getClientStep, getClientThreadStep,
          GetClientPC.finishedWithBuild],
        by simp_all [getClientStep, getClientThreadStep]⟩
    | inserting id =>
      exact ⟨by simp_all [getClientStep, getClientThreadStep,
          GetClientPC.constructions],
        by simp_all [getClientStep, getClientThreadStep,
          GetClientPC.finishedWithoutBuild],
        by simp_all [getClientStep, getClientThreadStep,
          GetClientPC.finishedWithoutBuild],
        by simp_all [getClientStep, getClientThreadStep,
          GetClientPC.finishedWithBuild],
        by simp_all [getClientStep, getClientThreadStep,
          GetClientPC.finishedWithBuild],
        by simp_all [getClientStep, getClientThreadStep,
          GetClientPC.constructions]⟩
    | finished built id =>
      exact ⟨by simp_all [getClientStep, getClientThreadStep,
          GetClientPC.constructions],
        by simp_all [getClientStep, getClientThreadStep,
          GetClientPC.finishedWithoutBuild],
        by simp_all [getClientStep, getClientThreadStep,
          GetClientPC.finishedWithoutBuild],
        by simp_all [getClientStep, getClientThreadStep,
          GetClientPC.finishedWithBuild],
        by simp_all [getClientStep, getClientThreadStep,
          GetClientPC.finishedWithBuild],
        by simp_all [getClientStep, getClientThreadStep]⟩
  · cases hpc : cfg.t2 with
    | start =>
      cases hcache : cfg.cache with
      | none =>
        exact ⟨by simp_all [getClientStep, getClientThreadStep,
            GetClientPC.constructions],
          by simp_all [getClientStep, getClientThreadStep,
            GetClientPC.finishedWithoutBuild],
          by simp_all [getClientStep, getClientThreadStep,
            GetClientPC.finishedWithoutBuild],
          by simp_all [getClientStep, getClientThreadStep,
            GetClientPC.finishedWithBuild],
          by simp_all [getClientStep, getClientThreadStep,
            GetClientPC.finishedWithBuild],
          by simp_all [getClientStep, getClientThreadStep]⟩
      | some id =>
        exact ⟨by simp_all [getClientStep, getClientThreadStep,
            GetClientPC.constructions],
          by simp_all [getClientStep, getClientThreadStep,
            GetClientPC.finishedWithoutBuild],
          by simp_all [getClientStep, getClientThreadStep,
            GetClientPC.finishedWithoutBuild],
          by simp_all [getClientStep, getClientThreadStep,
            GetClientPC.finishedWithBuild],
          by simp_all [getClientStep, getClientThreadStep,
            GetClientPC.finishedWithBuild],
          by simp_all [getClientStep, getClientThreadStep]⟩
    | missed =>
      exact ⟨by simp_all [getClientStep, getClientThreadStep,
          GetClientPC.constructions],
        by simp_all [getClientStep, getClientThreadStep,
          GetClientPC.finishedWithoutBuild],
        by simp_all [getClientStep, getClientThreadStep,
          GetClientPC.finishedWithoutBuild],
        by simp_all [getClientStep, getClientThreadStep,
          GetClientPC.finishedWithBuild],
        by simp_all [getClientStep, getClientThreadStep,
          GetClientPC.finishedWithBuild],
        by simp_all [getClientStep, getClientThreadStep]⟩
    | inserting id =>
      exact ⟨by simp_all [getClientStep, getClientThreadStep,
          GetClientPC.constructions],
        by simp_all [getClientStep, getClientThreadStep,
          GetClientPC.finishedWithoutBuild],
        by simp_all [getClientStep, getClientThreadStep,
          GetClientPC.finishedWithoutBuild],
        by simp_all [getClientStep, getClientThreadStep,
          GetClientPC.finishedWithBuild],
        by simp_all [getClientStep, getClientThreadStep,
          GetClientPC.finishedWithBuild],
        by simp_all [getClientStep, getClientThreadStep,
          GetClientPC.constructions]⟩
    | finished built id =>
      exact ⟨by simp_all [getClientStep, getClientThreadStep,
          GetClientPC.constructions],
        by simp_all [getClientStep, getClientThreadStep,
          GetClientPC.finishedWithoutBuild],
        by simp_all [getClientStep, getClientThreadStep,
          GetClientPC.finishedWithoutBuild],
        by simp_all [getClientStep, getClientThreadStep,
          GetClientPC.finishedWithBuild],
        by simp_all [getClientStep, getClientThreadStep,
          GetClientPC.finishedWithBuild],
        by simp_all [getClientStep, getClientThreadStep]⟩

theorem getClientInv_run (s : List Bool) :
    ∀ (cfg : GetClientCfg), GetClientInv cfg →
      GetClientInv (getClientRun cfg s) := by
  induction s with
  | nil => intro cfg h; exact h
  | cons who rest ih =>
    intro cfg h
    exact ih (getClientStep cfg who) (getClientInv_step cfg who h)

/-- C1 counterexample: the code constructs the adapter while holding no lock
and performs no re-check under the write lock (lib.rs lines 96-137), so in
the interleaving where both callers pass the read-lock check before either
inserts, a complete two-caller first-use run constructs TWO adapter
instances for the one previously-unseen provider - falsifying "construct
exactly one adapter instance". -/
theorem get_client_double_construction :
    (getClientRun getClientInit
      [false, true, false, true, false, true]).t1.isFinished = true ∧
    (getClientRun getClientInit
      [false, true, false, true, false, true]).t2.isFinished = true ∧
    (getClientRun getClientInit
      [false, true, false, true, false, true]).constructed = 2 := by
  decide

/-- C1 (amended): `get_client` fast-paths via the read lock to a cached
adapter; on a miss it constructs the adapter OUTSIDE any lock and inserts
unconditionally under the write lock, with no re-check.  Hence a complete
two-caller first-use run always ends with a populated cache and between one
and two constructed adapter instances, and both bounds are attained:
a fully serialised run constructs one instance, while the race where both
callers miss constructs two (the second insert overwriting the first). -/
theorem get_client_construction_bounds :
    (∀ schedule : List Bool,
      (getClientRun getClientInit schedule).t1.isFinished = true →
      (getClientRun getClientInit schedule).t2.isFinished = true →
      1 ≤ (getClientRun getClientInit schedule).constructed ∧
      (getClientRun getClientInit schedule).constructed ≤ 2 ∧
      (getClientRun getClientInit schedule).cache.isSome = true) ∧
    (getClientRun getClientInit [false, false, false, true]).constructed = 1 ∧
    (getClientRun getClientInit
      [false, true, false, true, false, true]).constructed = 2 := by
  refine ⟨?_, by decide, by decide⟩
  intro schedule hf1 hf2
  have hinv := getClientInv_run schedule getClientInit getClientInv_init
  obtain ⟨h1, h2, h3, h4, h5, h6⟩ := hinv
  cases hpc1 : (getClientRun getClientInit schedule).t1 with
  | start => simp [GetClientPC.isFinished, hpc1] at hf1
  | missed => simp [GetClientPC.isFinished, hpc1] at hf1
  | inserting id => simp [GetClientPC.isFinished, hpc1] at hf1
  | finished b1 id1 =>
    cases hpc2 : (getClientRun getClientInit schedule).t2 with
    | start => simp [GetClientPC.isFinished, hpc2] at hf2
    | missed => simp [GetClientPC.isFinished, hpc2] at hf2
    | inserting id => simp [GetClientPC.isFinished, hpc2] at hf2
    | finished b2 id2 =>
      rw [hpc1] at h1 h2 h4
      rw [hpc2] at h1 h3 h5
      simp only [GetClientPC.constructions, GetClientPC.finishedWithoutBuild,
        GetClientPC.finishedWithBuild] at h1 h2 h3 h4 h5
      cases b1 <;> cases b2 <;> simp_all

/-- C1 witness: the amended bounds applied at a concrete complete
serialised schedule. -/
theorem get_client_construction_bounds_witness :
    1 ≤ (getClientRun getClientInit [false, false, false, true]).constructed ∧
    (getClientRun getClientInit [false, false, false, true]).constructed ≤ 2 ∧
    (getClientRun getClientInit
      [false, false, false, true]).cache.isSome = true :=
  get_client_construction_bounds.1 [false, false, false, true]
    (by decide) (by decide)

theorem anthropicStep_sys (b64 : List Nat → String)
    (parseJson : String → Option Json)
    (st : Option String × List AnthropicMessage) (m : GaiseMessage) :
    (anthropicStep b64 parseJson st m).1 = anthropicSysStep st.1 m := by
  by_cases h : m.role = "system" <;>
    simp [anthropicStep, anthropicSysStep, h]

theorem anthropicStep_roles (b64 : List Nat → String)
    (parseJson : String → Option Json)
    (st : Option String × List AnthropicMessage) (m : GaiseMessage) :
    (anthropicStep b64 parseJson st m).2.map (·.role)
      = st.2.map (·.role)
        ++ (if m.role = "system" then [] else [m.role]) := by
  by_cases h : m.role = "system" <;>
    simp [anthropicStep, h]

theorem anthropicFold_characterization (b64 : List Nat → String)
    (parseJson : String → Option Json) :
    ∀ (msgs : List GaiseMessage) (st : Option String × List AnthropicMessage),
      (msgs.foldl (anthropicStep b64 parseJson) st).1
          = msgs.foldl anthropicSysStep st.1 ∧
      (msgs.foldl (anthropicStep b64 parseJson) st).2.map (·.role)
          = st.2.map (·.role)
            ++ (msgs.filter (fun m => m.role ≠ "system")).map (·.role) := by
  intro msgs
  induction msgs with
  | nil => intro st; simp
  | cons m rest ih =>
    intro st
    simp only [List.foldl_cons, List.filter_cons]
    constructor
    · rw [(ih (anthropicStep b64 parseJson st m)).1, anthropicStep_sys]
    · rw [(ih (anthropicStep b64 parseJson st m)).2, anthropicStep_roles]
      by_cases h : m.role = "system" <;> simp [h]

theorem addContent_characterization (b64 : List Nat → String)
    (pj : String → Option Json) (req : GoogleInstructRequest)
    (m : GaiseMessage) :
    (GoogleInstructRequest.add_content b64 pj req m).contents
        = req.contents ++ (vertexMsgContent b64 pj m).toList ∧
    (GoogleInstructRequest.add_content b64 pj req m).system_instruction
        = vertexSysUpdate req.system_instruction m := by
  by_cases h : m.role = "system"
  · cases hc : m.content <;>
      simp [GoogleInstructRequest.add_content, vertexMsgContent,
        vertexSysUpdate, h, hc]
  · have hunfold : GoogleInstructRequest.add_content b64 pj req m
        = (if (vertexMessageParts b64 pj m).isEmpty then req
           else { req with contents := req.contents ++
               [{ role := (to_google_role m.role).getD m.role,
                  parts := vertexMessageParts b64 pj m }] }) := by
      unfold GoogleInstructRequest.add_content
      rw [if_neg h]
      rfl
    constructor
    · rw [hunfold]
      by_cases hp : (vertexMessageParts b64 pj m).isEmpty <;>
        simp [vertexMsgContent, h, hp]
    · rw [hunfold]
      by_cases hp : (vertexMessageParts b64 pj m).isEmpty <;>
        simp [vertexSysUpdate, h, hp]

theorem addContentFold_characterization (b64 : List Nat → String)
    (pj : String → Option Json) :
    ∀ (msgs : List GaiseMessage) (req : GoogleInstructRequest),
      (msgs.foldl (fun r x =>
          GoogleInstructRequest.add_content b64 pj r x) req).contents
        = req.contents ++ msgs.filterMap (vertexMsgContent b64 pj) ∧
      (msgs.foldl (fun r x =>
          GoogleInstructRequest.add_content b64 pj r x) req).system_instruction
        = msgs.foldl vertexSysUpdate req.system_instruction := by
  intro msgs
  induction msgs with
  | nil => intro req; simp
  | cons m rest ih =>
    intro req
    simp only [List.foldl_cons, List.filterMap_cons]
    constructor
    · rw [(ih (GoogleInstructRequest.add_content b64 pj req m)).1,
        (addContent_characterization b64 pj req m).1]
      cases hmc : vertexMsgContent b64 pj m <;> simp [hmc]
    · rw [(ih (GoogleInstructRequest.add_content b64 pj req m)).2,
        (addContent_characterization b64 pj req m).2]

theorem bedrockFold_characterization :
    ∀ (msgs : List GaiseMessage)
      (st : List BedrockMessage × List String),
      msgs.foldl (fun st msg =>
          if msg.role = "system" then
            (st.1, st.2 ++ bedrockMessageTexts msg)
          else
            match mapGaiseMessageToBedrock msg with
            | some m => (st.1 ++ [m], st.2)
            | none => st) st
        = (st.1 ++ (msgs.filter (fun m => m.role ≠ "system")).filterMap
              mapGaiseMessageToBedrock,
           st.2 ++ (msgs.map bedrockSystemTexts).flatten) := by
  intro msgs
  induction msgs with
  | nil => intro st; simp
  | cons m rest ih =>
    intro st
    simp only [List.foldl_cons, List.filter_cons, List.map_cons,
      List.flatten]
    by_cases h : m.role = "system"
    · rw [if_pos h, ih]
      simp [h, bedrockSystemTexts, List.append_assoc]
    · rw [if_neg h]
      cases hb : mapGaiseMessageToBedrock m with
      | some bm =>
        rw [ih]
        simp [h, hb, bedrockSystemTexts, List.append_assoc]
      | none =>
        rw [ih]
        simp [h, hb, bedrockSystemTexts]

/-- C3 counterexample: the Anthropic request translator does NOT keep a
system-role message as an inline message - translating a request whose only
input message has role `"system"` with single-`Text` content yields an
EMPTY turn list with the text moved into the dedicated `system` field,
falsifying the claim for the second hosted-chat adapter. -/
theorem anthropic_system_counterexample :
    (AnthropicRequest.from (fun _ => "") (fun _ => none)
      (fun _ => { name := "", description := none,
                  input_schema := { type := "", properties := [],
                                    required := [] } })
      { model := "anthropic::claude", correlation_id := none, tools := none,
        tool_config := none, generation_config := none,
        input := OneOrMany.One
          { role := "system",
            content := some (OneOrMany.One (GaiseContent.Text "be brief")),
            tool_calls := none, tool_call_id := none } }).messages = [] ∧
    (AnthropicRequest.from (fun _ => "") (fun _ => none)
      (fun _ => { name := "", description := none,
                  input_schema := { type := "", properties := [],
                                    required := [] } })
      { model := "anthropic::claude", correlation_id := none, tools := none,
        tool_config := none, generation_config := none,
        input := OneOrMany.One
          { role := "system",
            content := some (OneOrMany.One (GaiseContent.Text "be brief")),
            tool_calls := none, tool_call_id := none } }).system
      = some "be brief" := by
  exact ⟨rfl, rfl⟩

/-- C3 (amended): the OpenAI and Ollama translators keep every message -
including every system-role message - inline in the turn list with its role
unchanged; the Anthropic translator removes EVERY system-role message from
the turn list and sets the request's `system` field to the text of the LAST
system message whose content is a single `Text` item; the VertexAI builder
likewise removes every system-role message from `contents` and overwrites
`system_instruction` with each system message that has content (last one
wins, text empty unless the content is a single `Text`); the Bedrock
partition removes every system-role message from the turn list and collects
ALL their `Text` items into the system block list. -/
theorem system_message_handling :
    (∀ (b64 : List Nat → String) (toolOf : GaiseTool → OpenAITool)
       (req : GaiseInstructRequest),
      (OpenAIChatRequest.from b64 toolOf req).messages.map (·.role)
        = (oneOrManyToList req.input).map (·.role)) ∧
    (∀ (b64 : List Nat → String)
       (pjo : String → Option (List (String × Json)))
       (toolOf : GaiseTool → OllamaTool) (req : GaiseInstructRequest),
      (OllamaChatRequest.from b64 pjo toolOf req).messages.map (·.role)
        = (oneOrManyToList req.input).map (·.role)) ∧
    (∀ (b64 : List Nat → String) (pj : String → Option Json)
       (toolOf : GaiseTool → AnthropicTool) (req : GaiseInstructRequest),
      (AnthropicRequest.from b64 pj toolOf req).messages.map (·.role)
        = ((oneOrManyToList req.input).filter
            (fun m => m.role ≠ "system")).map (·.role) ∧
      (AnthropicRequest.from b64 pj toolOf req).system
        = lastSystemPrompt (oneOrManyToList req.input)) ∧
    (∀ (b64 : List Nat → String) (pj : String → Option Json)
       (schemaOf : GaiseToolParameter → GoogleSchema)
       (req : GaiseInstructRequest),
      (GoogleInstructRequest.from b64 pj schemaOf req).contents
        = (oneOrManyToList req.input).filterMap (vertexMsgContent b64 pj) ∧
      (GoogleInstructRequest.from b64 pj schemaOf req).system_instruction
        = vertexSystemInstructionFold (oneOrManyToList req.input)) ∧
    (∀ input : OneOrMany GaiseMessage,
      (bedrockPartition input).1
        = ((oneOrManyToList input).filter
            (fun m => m.role ≠ "system")).filterMap mapGaiseMessageToBedrock ∧
      (bedrockPartition input).2
        = ((oneOrManyToList input).map bedrockSystemTexts).flatten) := by
  refine ⟨?_, ?_, ?_, ?_, ?_⟩
  · intro b64 toolOf req
    simp [OpenAIChatRequest.from, openaiMapMessage, List.map_map,
      Function.comp]
  · intro b64 pjo toolOf req
    simp [OllamaChatRequest.from, ollamaMapMessage, List.map_map,
      Function.comp]
  · intro b64 pj toolOf req
    have h := anthropicFold_characterization b64 pj
      (oneOrManyToList req.input) (none, [])
    constructor
    · have h2 := h.2
      simp only [List.map_nil, List.nil_append] at h2
      simpa [AnthropicRequest.from] using h2
    · have h1 := h.1
      simpa [AnthropicRequest.from, lastSystemPrompt] using h1
  · intro b64 pj schemaOf req
    unfold GoogleInstructRequest.from
    constructor
    · rw [(addContentFold_characterization b64 pj
        (oneOrManyToList req.input) _).1]
      simp
    · rw [(addContentFold_characterization b64 pj
        (oneOrManyToList req.input) _).2]
      simp [vertexSystemInstructionFold]
  · intro input
    have h := bedrockFold_characterization (oneOrManyToList input) ([], [])
    constructor
    · have h1 := congrArg Prod.fst h
      simpa [bedrockPartition] using h1
    · have h2 := congrArg Prod.snd h
      simpa [bedrockPartition] using h2

theorem from_gaiseList_append (b64 : List Nat → String)
    (a b : List GaiseContent) :
    GooglePart.from_gaiseList b64 (a ++ b)
      = GooglePart.from_gaiseList b64 a ++ GooglePart.from_gaiseList b64 b := by
  induction a with
  | nil => rfl
  | cons c cs ih =>
    simp only [List.cons_append, GooglePart.from_gaiseList, List.append_eq,
      ih, List.append_assoc]

theorem bedrockList_append (a b : List GaiseContent) :
    mapGaiseContentListToBedrock (a ++ b)
      = mapGaiseContentListToBedrock a ++ mapGaiseContentListToBedrock b := by
  induction a with
  | nil => rfl
  | cons c cs ih =>
    simp only [List.cons_append, mapGaiseContentListToBedrock,
      List.append_eq, ih, List.append_assoc]

mutual

theorem from_gaise_flattens (b64 : List Nat → String) (c : GaiseContent) :
    GooglePart.from_gaise b64 c
      = GooglePart.from_gaiseList b64 (specFlattenContent c) := by
  cases c with
  | Text t => rfl
  | Audio data format => rfl
  | Image data format => rfl
  | File data name => rfl
  | Parts parts =>
    show GooglePart.from_gaiseList b64 parts
        = GooglePart.from_gaiseList b64 (specFlattenList parts)
    exact from_gaiseList_flattens b64 parts

theorem from_gaiseList_flattens (b64 : List Nat → String)
    (cs : List GaiseContent) :
    GooglePart.from_gaiseList b64 cs
      = GooglePart.from_gaiseList b64 (specFlattenList cs) := by
  cases cs with
  | nil => rfl
  | cons c cs' =>
    show GooglePart.from_gaise b64 c ++ GooglePart.from_gaiseList b64 cs'
        = GooglePart.from_gaiseList b64
            (specFlattenContent c ++ specFlattenList cs')
    rw [from_gaiseList_append, from_gaise_flattens b64 c,
      from_gaiseList_flattens b64 cs']

end

mutual

theorem bedrock_flattens (c : GaiseContent) :
    mapGaiseContentToBedrock c
      = mapGaiseContentListToBedrock (specFlattenContent c) := by
  cases c with
  | Text t => rfl
  | Audio data format => rfl
  | Image data format => rfl
  | File data name => rfl
  | Parts parts =>
    show mapGaiseContentListToBedrock parts
        = mapGaiseContentListToBedrock (specFlattenList parts)
    exact bedrockList_flattens parts

theorem bedrockList_flattens (cs : List GaiseContent) :
    mapGaiseContentListToBedrock cs
      = mapGaiseContentListToBedrock (specFlattenList cs) := by
  cases cs with
  | nil => rfl
  | cons c cs' =>
    show mapGaiseContentToBedrock c ++ mapGaiseContentListToBedrock cs'
        = mapGaiseContentListToBedrock
            (specFlattenContent c ++ specFlattenList cs')
    rw [bedrockList_append, bedrock_flattens c, bedrockList_flattens cs']

end

/-- C4 counterexample: the OpenAI content translation does NOT recursively
flatten - for the content `Parts[Parts[Text "hi"]]` it produces an empty
part list (the inner `Parts` is not a direct `Text` child and is skipped),
while the same input pre-flattened produces the text part `"hi"`; the leaf
`Text` nested two levels deep is lost, falsifying the claim. -/
theorem nested_parts_counterexample :
    openaiMapContent (fun _ => "")
        (OneOrMany.One (GaiseContent.Parts
          [GaiseContent.Parts [GaiseContent.Text "hi"]]))
      = OpenAIContent.Parts [] ∧
    openaiMapContent (fun _ => "")
        (OneOrMany.Many (specFlattenContent (GaiseContent.Parts
          [GaiseContent.Parts [GaiseContent.Text "hi"]])))
      = OpenAIContent.Text "hi" ∧
    (OpenAIContent.Parts [] : OpenAIContent) ≠ OpenAIContent.Text "hi" := by
  refine ⟨rfl, rfl, by decide⟩

/-- C4 (amended): only the VertexAI and Bedrock content mappers recursively
flatten `Parts` - their translation of any content equals the translation
of its recursively flattened leaf sequence.  The OpenAI and Ollama
translators flatten a `Parts` item only ONE level, keeping nothing but the
concatenation of its direct `Text` children, and the Anthropic translator
drops `Parts` items entirely; consequently leaf `Text` items nested two or
more levels deep (one level, for Anthropic) are lost by those three
adapters, as the concrete conjuncts show. -/
theorem parts_flattening_behavior :
    (∀ (b64 : List Nat → String) (c : GaiseContent),
      GooglePart.from_gaise b64 c
        = GooglePart.from_gaiseList b64 (specFlattenContent c)) ∧
    (∀ c : GaiseContent,
      mapGaiseContentToBedrock c
        = mapGaiseContentListToBedrock (specFlattenContent c)) ∧
    (∀ b64 : List Nat → String,
      openaiMapContent b64 (OneOrMany.One (GaiseContent.Parts
          [GaiseContent.Parts [GaiseContent.Text "hi"]]))
        = OpenAIContent.Parts []) ∧
    (∀ (b64 : List Nat → String)
       (pjo : String → Option (List (String × Json))),
      (ollamaMapMessage b64 pjo
        { role := "user",
          content := some (OneOrMany.One (GaiseContent.Parts
            [GaiseContent.Parts [GaiseContent.Text "hi"]])),
          tool_calls := none, tool_call_id := none }).content = "") ∧
    (∀ (b64 : List Nat → String) (pj : String → Option Json),
      (anthropicStep b64 pj (none, [])
        { role := "user",
          content := some (OneOrMany.One (GaiseContent.Parts
            [GaiseContent.Text "hi"])),
          tool_calls := none, tool_call_id := none }).2
        = [{ role := "user", content := AnthropicContent.Blocks [] }]) := by
  refine ⟨fun b64 c => from_gaise_flattens b64 c,
    fun c => bedrock_flattens c, fun b64 => rfl, fun b64 pjo => rfl,
    fun b64 pj => rfl⟩
